import Mathlib

/-!
# rs_xue: point-cloud export and real-time client

A shallow embedding of `pcap_converter.cpp` and `realtime_lidar_client.cpp`.

Conventions of the embedding:

* `float` and `double` values are elements of a scalar type `α` that carries
  the operations the code uses (`*`, `+`, unary `-`, `≤`). Nothing is assumed
  about these operations unless a theorem says so.
* `std::vector` is `List`; `push_back` appends at the end.
* The two `SyncQueue`s are FIFO lists: `push` appends at the end, a pop takes
  the head.
* `uint32_t` sequence numbers are natural numbers, the `int` frame-count bound
  is an integer, and the mixed comparison is taken modulo `2^32`.
* `FloatVal` is one such scalar type, with the infinities and NaN of IEEE 754
  and exact arithmetic on its finite values; it is used where the special
  values matter.
* Log output (`RS_MSG`, `RS_ERROR`, ...) is not part of the state.
-/

namespace RsXue

/-! ## Data model -/

/-- The driver's point type `PointXYZIT`. -/
structure PointXYZIT (α : Type) where
  x : α
  y : α
  z : α
  intensity : α
  timestamp : α
  deriving DecidableEq, Repr

/-- The driver's frame type `PointCloudT<PointXYZIT>`: a sequence number and
the points of the frame. -/
structure PointCloudMsg (α : Type) where
  seq : Nat
  points : List (PointXYZIT α)
  deriving DecidableEq, Repr

/-- One call of `saveNpy`: the file name is built from `seq` and `stamp`
(the timestamp of the first point), the payload is `data` and the header
carries `shape`. -/
structure NpyFile (α : Type) where
  seq : Nat
  stamp : α
  data : List α
  shape : Nat × Nat
  deriving DecidableEq, Repr

/-! ## `processCloudWithCalib`: the calibrated transform -/

/-- Lines 97-99: the three new coordinates of a point. -/
def calibPoint {α : Type} [Mul α] [Add α] (R : Fin 9 → α) (t : Fin 3 → α)
    (p : PointXYZIT α) : α × α × α :=
  (R 0 * p.x + R 1 * p.y + R 2 * p.z + t 0,
   R 3 * p.x + R 4 * p.y + R 5 * p.z + t 1,
   R 6 * p.x + R 7 * p.y + R 8 * p.z + t 2)

/-- Lines 101-103: the range test on the new coordinates; `ranges` is
`x_min, x_max, y_min, y_max, z_min, z_max`. -/
def inRange {α : Type} [LE α] [DecidableRel (fun (a b : α) => a ≤ b)]
    (ranges : Fin 6 → α) (q : α × α × α) : Bool :=
  decide (ranges 0 ≤ q.1) && decide (q.1 ≤ ranges 1) &&
  decide (ranges 2 ≤ q.2.1) && decide (q.2.1 ≤ ranges 3) &&
  decide (ranges 4 ≤ q.2.2) && decide (q.2.2 ≤ ranges 5)

/-- Lines 92-108: the body of the `for` loop over the points, acting on the
output buffer `buf`. -/
def calibStep {α : Type} [Mul α] [Add α] [LE α] [DecidableRel (fun (a b : α) => a ≤ b)]
    (R : Fin 9 → α) (t : Fin 3 → α) (ranges : Fin 6 → α)
    (buf : List α) (p : PointXYZIT α) : List α :=
  let q := calibPoint R t p
  if inRange ranges q then ((buf ++ [q.1]) ++ [q.2.1]) ++ [q.2.2] else buf

/-- Lines 88-109: the buffer after the `for` loop, started empty. -/
def calibBuf {α : Type} [Mul α] [Add α] [LE α] [DecidableRel (fun (a b : α) => a ≤ b)]
    (R : Fin 9 → α) (t : Fin 3 → α) (ranges : Fin 6 → α)
    (points : List (PointXYZIT α)) : List α :=
  points.foldl (calibStep R t ranges) []

/-- The shape handed to `saveNpy` on line 118. -/
def calibShape {α : Type} (buf : List α) : Nat × Nat := (buf.length / 3, 3)

/-- The triples `R * p + t` of the points of a frame, in input order, that
lie within the range box, bounds included. -/
def keptPoints {α : Type} [Mul α] [Add α] [LE α] [DecidableRel (fun (a b : α) => a ≤ b)]
    (R : Fin 9 → α) (t : Fin 3 → α) (ranges : Fin 6 → α)
    (points : List (PointXYZIT α)) : List (α × α × α) :=
  (points.map (calibPoint R t)).filter
    (fun q => decide (ranges 0 ≤ q.1 ∧ q.1 ≤ ranges 1 ∧ ranges 2 ≤ q.2.1 ∧ q.2.1 ≤ ranges 3 ∧
      ranges 4 ≤ q.2.2 ∧ q.2.2 ≤ ranges 5))

/-- A list of triples written out row by row. -/
def rows {α : Type} : List (α × α × α) → List α
  | [] => []
  | q :: qs => q.1 :: q.2.1 :: q.2.2 :: rows qs

/-! ## The batch export loops -/

/-- The value of an `int` after conversion to `uint32_t`. -/
def toUInt32 (n : Int) : Nat := (n % 2 ^ 32).toNat

/-- The test `msg->seq > num_frames` (lines 64 and 124): `seq` is a
`uint32_t`, `num_frames` an `int`, so the bound is converted to `uint32_t`
before the comparison. -/
def stopTest (seq : Nat) (num_frames : Int) : Bool :=
  decide (toUInt32 num_frames < seq)

/-- What an export loop has done so far: the free pool, the files written by
`saveNpy` (oldest first), and the sequence numbers of the frames whose
`points.front()` was evaluated. -/
structure ExportState (α : Type) where
  free_cloud_queue : List (PointCloudMsg α)
  files : List (NpyFile α)
  fronts : List Nat
  deriving DecidableEq, Repr

/-- How a run of an export loop over a finite delivery queue ends: the
`break` was reached (with the frames left in the delivery queue), or the
queue ran empty and the loop is in `popWait`, or `points.front()` was
evaluated on a frame without points (undefined behaviour). -/
inductive Outcome (α : Type) where
  | stopped (stuffed : List (PointCloudMsg α)) (s : ExportState α)
  | waiting (s : ExportState α)
  | fault (s : ExportState α)
  deriving DecidableEq, Repr

/-- Lines 111-121 of `processCloudWithCalib`: the file is written only when
the buffer is not empty; `none` stands for `front()` on an empty vector. -/
def saveCalib {α : Type} (msg : PointCloudMsg α) (buf : List α) (s : ExportState α) :
    Option (ExportState α) :=
  if buf.isEmpty then some s
  else
    match msg.points.head? with
    | none => none
    | some p =>
      some { s with
        fronts := s.fronts ++ [msg.seq]
        files := s.files ++ [⟨msg.seq, p.timestamp, buf, calibShape buf⟩] }

/-- Line 123 (and line 63): `free_cloud_queue.push(msg)`. -/
def pushFree {α : Type} (msg : PointCloudMsg α) (s : ExportState α) : ExportState α :=
  { s with free_cloud_queue := s.free_cloud_queue ++ [msg] }

/-- Lines 81-126: `processCloudWithCalib`, run over the delivery queue given
as a list. -/
def processCloudWithCalib {α : Type} [Mul α] [Add α] [LE α]
    [DecidableRel (fun (a b : α) => a ≤ b)]
    (R : Fin 9 → α) (t : Fin 3 → α) (ranges : Fin 6 → α) (num_frames : Int) :
    List (PointCloudMsg α) → ExportState α → Outcome α
  | [], s => Outcome.waiting s
  | msg :: stuffed, s =>
    match saveCalib msg (calibBuf R t ranges msg.points) s with
    | none => Outcome.fault s
    | some s1 =>
      if stopTest msg.seq num_frames then Outcome.stopped stuffed (pushFree msg s1)
      else processCloudWithCalib R t ranges num_frames stuffed (pushFree msg s1)

/-- Lines 51-56 of `processCloud`: a buffer of `3 * N` zeros, filled by
index. -/
def rawBuf {α : Type} [Zero α] (points : List (PointXYZIT α)) : List α :=
  (List.range points.length).foldl
    (fun buf i =>
      match points[i]? with
      | some p => ((buf.set (i * 3 + 0) p.x).set (i * 3 + 1) p.y).set (i * 3 + 2) p.z
      | none => buf)
    (List.replicate (points.length * 3) 0)

/-- Lines 57-62 of `processCloud`: the file is written for every frame;
`none` stands for `front()` on an empty vector. -/
def saveRaw {α : Type} [Zero α] (msg : PointCloudMsg α) (s : ExportState α) :
    Option (ExportState α) :=
  match msg.points.head? with
  | none => none
  | some p =>
    some { s with
      fronts := s.fronts ++ [msg.seq]
      files := s.files ++ [⟨msg.seq, p.timestamp, rawBuf msg.points, (msg.points.length, 3)⟩] }

/-- Lines 44-66: `processCloud`, run over the delivery queue given as a
list. -/
def processCloud {α : Type} [Zero α] (num_frames : Int) :
    List (PointCloudMsg α) → ExportState α → Outcome α
  | [], s => Outcome.waiting s
  | msg :: stuffed, s =>
    match saveRaw msg s with
    | none => Outcome.fault s
    | some s1 =>
      if stopTest msg.seq num_frames then Outcome.stopped stuffed (pushFree msg s1)
      else processCloud num_frames stuffed (pushFree msg s1)

/-- The file `processCloudWithCalib` writes for a frame, if any: named by
the sequence number and the first point's timestamp, holding the kept
triples row by row. -/
def fileOf {α : Type} [Mul α] [Add α] [LE α] [DecidableRel (fun (a b : α) => a ≤ b)]
    (R : Fin 9 → α) (t : Fin 3 → α) (ranges : Fin 6 → α) (msg : PointCloudMsg α) :
    Option (NpyFile α) :=
  match keptPoints R t ranges msg.points, msg.points with
  | [], _ => none
  | _ :: _, [] => none
  | q :: qs, p :: _ =>
    some ⟨msg.seq, p.timestamp, rows (q :: qs), ((q :: qs).length, 3)⟩

/-- The 3x3 identity, row-major. -/
def identityR {α : Type} [Zero α] [One α] : Fin 9 → α :=
  fun i => if i = 0 ∨ i = 4 ∨ i = 8 then 1 else 0

/-- The zero translation. -/
def zeroT {α : Type} [Zero α] : Fin 3 → α := fun _ => 0

/-- The coordinates of a point as a triple. -/
def xyz {α : Type} (p : PointXYZIT α) : α × α × α := (p.x, p.y, p.z)

/-! ## The real-time client -/

/-- The struct `PointCloudData` of `realtime_lidar_client.h`. -/
structure PointCloudData (α : Type) where
  x : List α
  y : List α
  z : List α
  intensity : List α
  timestamp : List α
  frame_id : Nat
  point_count : Nat
  deriving DecidableEq, Repr

/-- The method `PointCloudData::clear` (lines 45-53 of the header). -/
def PointCloudData.clear {α : Type} (d : PointCloudData α) : PointCloudData α :=
  { d with x := [], y := [], z := [], intensity := [], timestamp := [],
           frame_id := 0, point_count := 0 }

/-- The default constructor `PointCloudData()`. -/
def PointCloudData.new {α : Type} : PointCloudData α :=
  ⟨[], [], [], [], [], 0, 0⟩

/-- Lines 283-289 of `convertPointCloudMsg`: the body of the loop over the
points. -/
def convertStep {α : Type} [Neg α] (point_cloud : PointCloudData α) (point : PointXYZIT α) :
    PointCloudData α :=
  { point_cloud with
    x := point_cloud.x ++ [-point.y]
    y := point_cloud.y ++ [point.x]
    z := point_cloud.z ++ [point.z]
    intensity := point_cloud.intensity ++ [point.intensity]
    timestamp := point_cloud.timestamp ++ [point.timestamp] }

/-- Lines 266-295: `convertPointCloudMsg`; the second argument is the output
object as it is on entry. -/
def convertPointCloudMsg {α : Type} [Neg α] (msg : PointCloudMsg α)
    (point_cloud : PointCloudData α) : PointCloudData α :=
  let cleared := point_cloud.clear
  if msg.points.length = 0 then cleared
  else
    { msg.points.foldl convertStep cleared with
      frame_id := msg.seq
      point_count := msg.points.length }

/-- The field `input_type` of the driver parameters. -/
inductive InputType where
  | ONLINE_LIDAR
  | PCAP_FILE
  | RAW_PACKET
  deriving DecidableEq, Repr

/-- The fields of `RSDriverParam` that `initialize` sets; `lidar_type` is
the enumerator's number. -/
structure RSDriverParam where
  input_type : InputType
  host_address : String
  group_address : String
  msop_port : Nat
  difop_port : Nat
  lidar_type : Nat
  dense_points : Bool
  deriving DecidableEq, Repr

/-- A call made on the driver object `driver_`. -/
inductive DriverCall where
  | regPointCloudCallback
  | regExceptionCallback
  | init
  | start
  | stop
  deriving DecidableEq, Repr

/-- What `driver_->init(param_)` does: it returns `true`, returns `false`, or
throws a `std::exception` with the given `what()`. -/
inductive InitOutcome where
  | accepted
  | rejected
  | threw (what : String)
  deriving DecidableEq, Repr

/-- The member `processing_thread_`: never started, running (joinable), or
joined. -/
inductive ThreadState where
  | idle
  | running
  | joined
  deriving DecidableEq, Repr

/-- The members of `RealtimeLidarClient`; `driver` is the list of calls made
on `driver_` so far, oldest first. -/
structure Client (α : Type) where
  driver : List DriverCall
  param : RSDriverParam
  free_cloud_queue : List (PointCloudMsg α)
  stuffed_cloud_queue : List (PointCloudMsg α)
  processing_thread : ThreadState
  should_stop_processing : Bool
  latest_cloud_data : PointCloudData α
  has_new_data : Bool
  initialized : Bool
  running : Bool
  connected : Bool
  last_error : String
  deriving DecidableEq, Repr

/-- Lines 17-24: the constructor, for given default driver parameters. -/
def Client.new {α : Type} (param : RSDriverParam) : Client α :=
  { driver := [], param := param, free_cloud_queue := [], stuffed_cloud_queue := [],
    processing_thread := ThreadState.idle, should_stop_processing := false,
    latest_cloud_data := PointCloudData.new, has_new_data := false,
    initialized := false, running := false, connected := false, last_error := "" }

/-- Lines 298-302: `set_error`. -/
def set_error {α : Type} (error : String) (c : Client α) : Client α :=
  { c with last_error := error }

/-- Lines 239-252: `returnPointCloudCallback`, the driver handing over a
filled frame. -/
def returnPointCloudCallback {α : Type} (msg : PointCloudMsg α) (c : Client α) : Client α :=
  { c with stuffed_cloud_queue := c.stuffed_cloud_queue ++ [msg] }

/-- Lines 27-51: one pass of the loop of `processCloudThread`. With the stop
flag set the loop is left; with an empty delivery queue `popWait` yields no
frame and nothing changes. -/
def processCloudIter {α : Type} [Neg α] (c : Client α) : Client α :=
  if c.should_stop_processing then c
  else
    match c.stuffed_cloud_queue with
    | [] => c
    | msg :: rest =>
      { c with
        stuffed_cloud_queue := rest
        latest_cloud_data := convertPointCloudMsg msg PointCloudData.new
        has_new_data := true
        free_cloud_queue := c.free_cloud_queue ++ [msg] }

/-- The frame a pass of the loop of `processCloudThread` handles, if any. -/
def handledFrame {α : Type} (c : Client α) : Option (PointCloudMsg α) :=
  if c.should_stop_processing then none else c.stuffed_cloud_queue.head?

/-- Lines 26-52: `processCloudThread`, run for `n` passes of its loop. -/
def processCloudThread {α : Type} [Neg α] : Nat → Client α → Client α
  | 0, c => c
  | n + 1, c => processCloudThread n (processCloudIter c)

/-- Lines 54-77: `get`. The arguments are the client and the caller's output
object; `none` means the call is still waiting on the condition variable,
otherwise the result is the return value, the client and the output object
afterwards. -/
def get {α : Type} (c : Client α) (point_cloud : PointCloudData α) :
    Option (Bool × Client α × PointCloudData α) :=
  if !c.running then
    some (false, set_error "Client is not running" c, point_cloud)
  else if !(c.has_new_data || c.should_stop_processing) then
    none
  else if c.should_stop_processing then
    some (false, c, point_cloud)
  else if c.has_new_data then
    some (true,
      { c with latest_cloud_data := c.latest_cloud_data.clear, has_new_data := false },
      c.latest_cloud_data)
  else
    some (false, c, point_cloud)

/-- Lines 79-101: `stop`. -/
def stop {α : Type} (c : Client α) : Client α :=
  if !c.running then c
  else
    { c with
      should_stop_processing := true
      processing_thread :=
        if c.processing_thread = ThreadState.running then ThreadState.joined
        else c.processing_thread
      driver := c.driver ++ [DriverCall.stop]
      running := false
      connected := false }

/-- Lines 171-189: `start`. Line 185 move-assigns a new `std::thread` onto
`processing_thread_`; when the old thread is still joinable that assignment
calls `std::terminate`, and `none` stands for it. -/
def start {α : Type} (c : Client α) : Option (Bool × Client α) :=
  if !c.initialized then some (false, c)
  else if c.running then some (true, c)
  else if c.processing_thread = ThreadState.running then none
  else
    some (true,
      { c with
        driver := c.driver ++ [DriverCall.start]
        should_stop_processing := false
        processing_thread := ThreadState.running
        running := true })

/-- Lines 122-133 of `initialize`: the driver parameters after the
assignments, from the parameters as they were. -/
def initParam (lidar_ip : String) (msop_port difop_port : Nat) (lidar_type : Nat)
    (host_ip : String) (param : RSDriverParam) : RSDriverParam :=
  let p1 : RSDriverParam :=
    { param with
      input_type := InputType.ONLINE_LIDAR
      host_address := host_ip
      msop_port := msop_port
      difop_port := difop_port
      lidar_type := lidar_type
      dense_points := true }
  if lidar_ip ≠ "" ∧ lidar_ip ≠ "192.168.1.200" then { p1 with group_address := lidar_ip }
  else p1

/-- Lines 115-169: the five-argument `initialize`; `driverInit` says what the
driver's `init` does with the parameters. The result is the return value and
the client afterwards, or `none` when `start` ends in `std::terminate`. -/
def initClient {α : Type} (driverInit : RSDriverParam → InitOutcome)
    (lidar_ip : String) (msop_port difop_port : Nat) (lidar_type : Nat) (host_ip : String)
    (c : Client α) : Option (Bool × Client α) :=
  let c1 : Client α :=
    { c with
      param := initParam lidar_ip msop_port difop_port lidar_type host_ip c.param
      driver := c.driver ++
        [DriverCall.regPointCloudCallback, DriverCall.regExceptionCallback, DriverCall.init] }
  match driverInit c1.param with
  | InitOutcome.threw what =>
    some (false, set_error ("Initialization exception: " ++ what) c1)
  | InitOutcome.rejected => some (false, set_error "Driver initialization failed" c1)
  | InitOutcome.accepted =>
    match start { c1 with initialized := true, connected := true } with
    | none => none
    | some (_, c2) => some (true, c2)

/-- Lines 304-317: `cleanup`. -/
def cleanup {α : Type} (c : Client α) : Client α :=
  { c with free_cloud_queue := [], stuffed_cloud_queue := [], initialized := false,
           connected := false }

/-- Lines 195-219: `force_stop`. -/
def force_stop {α : Type} (c : Client α) : Client α :=
  cleanup { c with running := false, connected := false, initialized := false,
                   driver := c.driver ++ [DriverCall.stop] }

/-- Lines 191-193: `is_connected`. -/
def is_connected {α : Type} (c : Client α) : Bool := c.connected && c.running

/-- The driver delivering the frames of a list, one call of
`returnPointCloudCallback` each, in order. -/
def deliverAll {α : Type} (frames : List (PointCloudMsg α)) (c : Client α) : Client α :=
  frames.foldl (fun c msg => returnPointCloudCallback msg c) c

/-- The rows `[x_i, y_i, z_i]` of a `PointCloudData`, one after the other. -/
def xyzRows {α : Type} (d : PointCloudData α) : List α :=
  rows (List.zip d.x (List.zip d.y d.z))

/-! ## Interleavings of the driver, the publisher thread and the reader -/

/-- One atomic step of a session: the driver delivers a frame, the publisher
thread makes one pass of its loop, or the reader calls `get`. -/
inductive Action (α : Type) where
  | deliver (msg : PointCloudMsg α)
  | publish
  | get
  deriving DecidableEq, Repr

/-- A session so far: the client, the frames the publisher has handled and
the results of the successful `get` calls, both oldest first. -/
structure Session (α : Type) where
  client : Client α
  published : List (PointCloudMsg α)
  returned : List (PointCloudData α)
  deriving DecidableEq, Repr

/-- One step of a session. A `get` that would wait leaves the session as it
is. -/
def Session.step {α : Type} [Neg α] (s : Session α) : Action α → Session α
  | Action.deliver msg => { s with client := returnPointCloudCallback msg s.client }
  | Action.publish =>
    { s with
      client := processCloudIter s.client
      published :=
        match handledFrame s.client with
        | some msg => s.published ++ [msg]
        | Option.none => s.published }
  | Action.get =>
    match get s.client PointCloudData.new with
    | Option.none => s
    | some (true, c1, out) => { s with client := c1, returned := s.returned ++ [out] }
    | some (false, c1, _) => { s with client := c1 }

/-- A session run through a list of steps. -/
def Session.run {α : Type} [Neg α] (s : Session α) (as : List (Action α)) : Session α :=
  as.foldl Session.step s

/-- The frames the driver delivers in a list of steps, in order. -/
def deliveredOf {α : Type} : List (Action α) → List (PointCloudMsg α)
  | [] => []
  | Action.deliver msg :: as => msg :: deliveredOf as
  | Action.publish :: as => deliveredOf as
  | Action.get :: as => deliveredOf as

/-- Lines 285-287 of `convertPointCloudMsg`: the coordinates stored for a
point with coordinates `(x, y, z)`. -/
def axisMap {α : Type} [Neg α] (q : α × α × α) : α × α × α := (-q.2.1, q.1, q.2.2)

/-! ## A scalar type with the special values of floats -/

/-- The values of an IEEE 754 float, the two zeros taken as one value: a
finite value (here an integer, on which the arithmetic is exact), one of the
two infinities, or NaN. -/
inductive FloatVal where
  | fin (v : Int)
  | posInf
  | negInf
  | nan
  deriving DecidableEq, Repr

/-- IEEE 754 multiplication on `FloatVal`: NaN is absorbing, zero times an
infinity is NaN, and an infinity times a non-zero value is the infinity of
the product's sign. -/
def FloatVal.mul : FloatVal → FloatVal → FloatVal
  | FloatVal.nan, _ => FloatVal.nan
  | _, FloatVal.nan => FloatVal.nan
  | FloatVal.fin a, FloatVal.fin b => FloatVal.fin (a * b)
  | FloatVal.fin a, FloatVal.posInf =>
    if a = 0 then FloatVal.nan else if 0 < a then FloatVal.posInf else FloatVal.negInf
  | FloatVal.fin a, FloatVal.negInf =>
    if a = 0 then FloatVal.nan else if 0 < a then FloatVal.negInf else FloatVal.posInf
  | FloatVal.posInf, FloatVal.fin b =>
    if b = 0 then FloatVal.nan else if 0 < b then FloatVal.posInf else FloatVal.negInf
  | FloatVal.negInf, FloatVal.fin b =>
    if b = 0 then FloatVal.nan else if 0 < b then FloatVal.negInf else FloatVal.posInf
  | FloatVal.posInf, FloatVal.posInf => FloatVal.posInf
  | FloatVal.posInf, FloatVal.negInf => FloatVal.negInf
  | FloatVal.negInf, FloatVal.posInf => FloatVal.negInf
  | FloatVal.negInf, FloatVal.negInf => FloatVal.posInf

/-- IEEE 754 addition on `FloatVal`: NaN is absorbing, the sum of the two
infinities is NaN, and an infinity plus anything else is that infinity. -/
def FloatVal.add : FloatVal → FloatVal → FloatVal
  | FloatVal.nan, _ => FloatVal.nan
  | _, FloatVal.nan => FloatVal.nan
  | FloatVal.fin a, FloatVal.fin b => FloatVal.fin (a + b)
  | FloatVal.fin _, FloatVal.posInf => FloatVal.posInf
  | FloatVal.fin _, FloatVal.negInf => FloatVal.negInf
  | FloatVal.posInf, FloatVal.fin _ => FloatVal.posInf
  | FloatVal.negInf, FloatVal.fin _ => FloatVal.negInf
  | FloatVal.posInf, FloatVal.posInf => FloatVal.posInf
  | FloatVal.negInf, FloatVal.negInf => FloatVal.negInf
  | FloatVal.posInf, FloatVal.negInf => FloatVal.nan
  | FloatVal.negInf, FloatVal.posInf => FloatVal.nan

/-- IEEE 754 `<=` on `FloatVal`: every comparison with NaN is false. -/
def FloatVal.le : FloatVal → FloatVal → Bool
  | FloatVal.nan, _ => false
  | _, FloatVal.nan => false
  | FloatVal.fin a, FloatVal.fin b => decide (a ≤ b)
  | FloatVal.negInf, _ => true
  | _, FloatVal.posInf => true
  | FloatVal.posInf, _ => false
  | FloatVal.fin _, FloatVal.negInf => false

instance : Mul FloatVal := ⟨FloatVal.mul⟩

instance : Add FloatVal := ⟨FloatVal.add⟩

instance : Zero FloatVal := ⟨FloatVal.fin 0⟩

instance : One FloatVal := ⟨FloatVal.fin 1⟩

instance : LE FloatVal := ⟨fun a b => FloatVal.le a b = true⟩

instance : DecidableRel (fun (a b : FloatVal) => a ≤ b) :=
  fun a b => inferInstanceAs (Decidable (FloatVal.le a b = true))

/-- The range box with every lower bound minus infinity and every upper
bound plus infinity. -/
def infBox : Fin 6 → FloatVal :=
  fun i => if i.val % 2 = 0 then FloatVal.negInf else FloatVal.posInf

/-- The point `(1, +inf, 3)`. -/
def infPoint : PointXYZIT FloatVal :=
  ⟨FloatVal.fin 1, FloatVal.posInf, FloatVal.fin 3, FloatVal.fin 0, FloatVal.fin 0⟩

/-- A point with finite coordinates, intensity 0 and timestamp 0. -/
def finPoint (x y z : Int) : PointXYZIT FloatVal :=
  ⟨FloatVal.fin x, FloatVal.fin y, FloatVal.fin z, FloatVal.fin 0, FloatVal.fin 0⟩

/-! ## Sample data -/

/-- Driver parameters before `initialize`. -/
def sampleParam : RSDriverParam :=
  ⟨InputType.ONLINE_LIDAR, "0.0.0.0", "0.0.0.0", 6699, 7788, 0, false⟩

/-- A freshly constructed client. -/
def sampleNew : Client Int := Client.new sampleParam

/-- A client after a successful `initialize`. -/
def sampleRunning : Client Int :=
  match initClient (fun _ => InitOutcome.accepted) "192.168.1.200" 6699 7788 0 "0.0.0.0"
    sampleNew with
  | some (_, c) => c
  | none => sampleNew

/-- The initialized client after `force_stop`: the three flags are `false`
and the publisher thread has not been joined. -/
def sampleForceStopped : Client Int := force_stop sampleRunning


/-- The rotation entries `1..9`, row-major: rows `(1,2,3)`, `(4,5,6)`,
`(7,8,9)`. -/
def sampleR : Fin 9 → Int := fun i => (i.val : Int) + 1

/-- The translation `(10, 20, 30)`. -/
def sampleT : Fin 3 → Int := fun i => 10 * ((i.val : Int) + 1)

/-- The range box `[0,20] x [0,60] x [0,100]`. -/
def sampleBox : Fin 6 → Int := fun i => [0, 20, 0, 60, 0, 100].getD i.val 0

/-- The range box `[0,5]^3` over the integers. -/
def box05 : Fin 6 → Int := fun i => if i.val % 2 = 0 then 0 else 5

/-- A point with the given coordinates, intensity 7 and the given timestamp. -/
def samplePoint (x y z ts : Int) : PointXYZIT Int := ⟨x, y, z, 7, ts⟩

/-- Three frames: the first keeps one point in `box05`, the second has no
point, the third keeps none. -/
def sampleFrames : List (PointCloudMsg Int) :=
  [⟨1, [samplePoint 1 2 3 100, samplePoint (-10) (-10) (-10) 101]⟩,
   ⟨2, []⟩,
   ⟨3, [samplePoint 9 9 9 300]⟩]

/-- An export state with nothing in it. -/
def emptyExport : ExportState Int := ⟨[], [], []⟩

/-- A session in which the driver delivers frame 4 with one point and then
frame 5 without points, each handled by the publisher and then fetched. -/
def sampleEmptyFrameSteps : List (Action Int) :=
  [Action.deliver ⟨4, [samplePoint 1 2 3 100]⟩, Action.publish, Action.get,
    Action.deliver ⟨5, []⟩, Action.publish, Action.get]

/-! ## The calibrated transform: lemmas -/

theorem rows_length {α : Type} (qs : List (α × α × α)) :
    (rows qs).length = 3 * qs.length := by
  induction qs with
  | nil => rfl
  | cons q qs ih => simp [rows, ih]; omega

theorem rows_eq_nil {α : Type} (qs : List (α × α × α)) : rows qs = [] ↔ qs = [] := by
  cases qs <;> simp [rows]

theorem inRange_eq_decide {α : Type} [LE α] [DecidableRel (fun (a b : α) => a ≤ b)]
    (ranges : Fin 6 → α) (q : α × α × α) :
    inRange ranges q = decide (ranges 0 ≤ q.1 ∧ q.1 ≤ ranges 1 ∧ ranges 2 ≤ q.2.1 ∧
      q.2.1 ≤ ranges 3 ∧ ranges 4 ≤ q.2.2 ∧ q.2.2 ≤ ranges 5) := by
  simp [inRange, Bool.decide_and, Bool.and_assoc]

theorem foldl_calibStep {α : Type} [Mul α] [Add α] [LE α]
    [DecidableRel (fun (a b : α) => a ≤ b)]
    (R : Fin 9 → α) (t : Fin 3 → α) (ranges : Fin 6 → α)
    (points : List (PointXYZIT α)) (buf : List α) :
    points.foldl (calibStep R t ranges) buf = buf ++ rows (keptPoints R t ranges points) := by
  induction points generalizing buf with
  | nil => simp [keptPoints, rows]
  | cons p ps ih =>
    rw [List.foldl_cons, ih]
    have hk : keptPoints R t ranges (p :: ps) =
        if inRange ranges (calibPoint R t p) then calibPoint R t p :: keptPoints R t ranges ps
        else keptPoints R t ranges ps := by
      simp only [keptPoints, List.map_cons, List.filter_cons, inRange_eq_decide]
    rw [hk]
    unfold calibStep
    by_cases h : inRange ranges (calibPoint R t p) = true
    · simp [h, rows]
    · simp [h]

theorem calibBuf_eq_rows {α : Type} [Mul α] [Add α] [LE α]
    [DecidableRel (fun (a b : α) => a ≤ b)]
    (R : Fin 9 → α) (t : Fin 3 → α) (ranges : Fin 6 → α)
    (points : List (PointXYZIT α)) :
    calibBuf R t ranges points = rows (keptPoints R t ranges points) := by
  simp [calibBuf, foldl_calibStep]

/-! ## Claims on the calibrated transform -/

/-- C1: for every frame, row-major 3x3 rotation `R`, translation `t` and
range box, the buffer `processCloudWithCalib` builds for the frame is exactly
the triples `x' = R0 x + R1 y + R2 z + t0`, `y' = R3 x + R4 y + R5 z + t1`,
`z' = R6 x + R7 y + R8 z + t2`, in input order, of the points whose three new
coordinates lie within the box, bounds included, written row by row; its
length is three times the number of kept points and the shape given to
`saveNpy` is `(kept, 3)`. On the points `(1,2,3)` and `(-10,-10,-10)` with
the identity, no translation and the box `[0,5]^3` the buffer is `[1,2,3]`.
With `R = [1,2,3; 4,5,6; 7,8,9]`, `t = (10,20,30)` and the box
`[0,20] x [0,60] x [0,100]` the points `(1,0,0)`, `(0,1,0)`, `(1,2,3)` give
`(11,24,37)`, `(12,25,38)` and `(24,52,80)`, of which the last is outside. -/
theorem calibBuf_exact :
    (∀ (α : Type) [Mul α] [Add α] [LE α] [DecidableRel (fun (a b : α) => a ≤ b)]
      (R : Fin 9 → α) (t : Fin 3 → α) (ranges : Fin 6 → α) (points : List (PointXYZIT α)),
      calibBuf R t ranges points
          = rows ((points.map (fun p =>
                (R 0 * p.x + R 1 * p.y + R 2 * p.z + t 0,
                 R 3 * p.x + R 4 * p.y + R 5 * p.z + t 1,
                 R 6 * p.x + R 7 * p.y + R 8 * p.z + t 2))).filter
              (fun q => decide (ranges 0 ≤ q.1 ∧ q.1 ≤ ranges 1 ∧ ranges 2 ≤ q.2.1 ∧
                q.2.1 ≤ ranges 3 ∧ ranges 4 ≤ q.2.2 ∧ q.2.2 ≤ ranges 5)))
        ∧ (calibBuf R t ranges points).length
            = 3 * ((points.map (fun p =>
                (R 0 * p.x + R 1 * p.y + R 2 * p.z + t 0,
                 R 3 * p.x + R 4 * p.y + R 5 * p.z + t 1,
                 R 6 * p.x + R 7 * p.y + R 8 * p.z + t 2))).filter
              (fun q => decide (ranges 0 ≤ q.1 ∧ q.1 ≤ ranges 1 ∧ ranges 2 ≤ q.2.1 ∧
                q.2.1 ≤ ranges 3 ∧ ranges 4 ≤ q.2.2 ∧ q.2.2 ≤ ranges 5))).length
        ∧ calibShape (calibBuf R t ranges points)
            = (((points.map (fun p =>
                (R 0 * p.x + R 1 * p.y + R 2 * p.z + t 0,
                 R 3 * p.x + R 4 * p.y + R 5 * p.z + t 1,
                 R 6 * p.x + R 7 * p.y + R 8 * p.z + t 2))).filter
              (fun q => decide (ranges 0 ≤ q.1 ∧ q.1 ≤ ranges 1 ∧ ranges 2 ≤ q.2.1 ∧
                q.2.1 ≤ ranges 3 ∧ ranges 4 ≤ q.2.2 ∧ q.2.2 ≤ ranges 5))).length, 3))
    ∧ calibBuf (identityR : Fin 9 → Int) zeroT (fun i => if i.val % 2 = 0 then 0 else 5)
        [⟨1, 2, 3, 0, 0⟩, ⟨-10, -10, -10, 0, 0⟩] = [1, 2, 3]
    ∧ calibBuf sampleR sampleT sampleBox
        [⟨1, 0, 0, 0, 0⟩, ⟨0, 1, 0, 0, 0⟩, ⟨1, 2, 3, 0, 0⟩] = [11, 24, 37, 12, 25, 38] := by
  refine ⟨?_, by decide, by decide⟩
  intro α _ _ _ _ R t ranges points
  show calibBuf R t ranges points = rows (keptPoints R t ranges points)
    ∧ (calibBuf R t ranges points).length = 3 * (keptPoints R t ranges points).length
    ∧ calibShape (calibBuf R t ranges points) = ((keptPoints R t ranges points).length, 3)
  refine ⟨calibBuf_eq_rows R t ranges points, ?_, ?_⟩
  · rw [calibBuf_eq_rows, rows_length]
  · simp [calibShape, calibBuf_eq_rows, rows_length]

/-! ## The calibrated export loop: lemmas -/

theorem keptPoints_nil {α : Type} [Mul α] [Add α] [LE α]
    [DecidableRel (fun (a b : α) => a ≤ b)]
    (R : Fin 9 → α) (t : Fin 3 → α) (ranges : Fin 6 → α) :
    keptPoints R t ranges ([] : List (PointXYZIT α)) = [] := by
  simp [keptPoints]

theorem stopTest_iff (seq : Nat) (num_frames : Int) (h0 : 0 ≤ num_frames)
    (h1 : num_frames < 2 ^ 31) : stopTest seq num_frames = true ↔ num_frames < (seq : Int) := by
  have hmod : num_frames % 2 ^ 32 = num_frames := Int.emod_eq_of_lt h0 (by omega)
  simp only [stopTest, toUInt32, hmod, decide_eq_true_eq]
  omega

theorem fileOf_eq_none {α : Type} [Mul α] [Add α] [LE α]
    [DecidableRel (fun (a b : α) => a ≤ b)]
    (R : Fin 9 → α) (t : Fin 3 → α) (ranges : Fin 6 → α) (msg : PointCloudMsg α)
    (hk : keptPoints R t ranges msg.points = []) : fileOf R t ranges msg = none := by
  simp [fileOf, hk]

theorem fileOf_eq_some {α : Type} [Mul α] [Add α] [LE α]
    [DecidableRel (fun (a b : α) => a ≤ b)]
    (R : Fin 9 → α) (t : Fin 3 → α) (ranges : Fin 6 → α) (msg : PointCloudMsg α)
    (hk : keptPoints R t ranges msg.points ≠ []) :
    ∃ p ps, msg.points = p :: ps ∧
      fileOf R t ranges msg =
        some ⟨msg.seq, p.timestamp, rows (keptPoints R t ranges msg.points),
          ((keptPoints R t ranges msg.points).length, 3)⟩ := by
  rcases hp : msg.points with _ | ⟨p, ps⟩
  · rw [hp, keptPoints_nil] at hk
    exact absurd rfl hk
  · refine ⟨p, ps, rfl, ?_⟩
    rw [hp] at hk
    rcases hq : keptPoints R t ranges (p :: ps) with _ | ⟨q, qs⟩
    · exact absurd hq hk
    · simp only [fileOf, hp, hq]

theorem saveCalib_calibBuf {α : Type} [Mul α] [Add α] [LE α]
    [DecidableRel (fun (a b : α) => a ≤ b)]
    (R : Fin 9 → α) (t : Fin 3 → α) (ranges : Fin 6 → α)
    (msg : PointCloudMsg α) (s : ExportState α) :
    saveCalib msg (calibBuf R t ranges msg.points) s =
      some ⟨s.free_cloud_queue, s.files ++ (fileOf R t ranges msg).toList,
        s.fronts ++ (fileOf R t ranges msg).toList.map NpyFile.seq⟩ := by
  rw [calibBuf_eq_rows]
  by_cases hk : keptPoints R t ranges msg.points = []
  · simp [saveCalib, fileOf_eq_none R t ranges msg hk, hk, rows]
  · obtain ⟨p, ps, hp, hf⟩ := fileOf_eq_some R t ranges msg hk
    have hne : (rows (keptPoints R t ranges msg.points)).isEmpty = false := by
      cases hr : rows (keptPoints R t ranges msg.points) with
      | nil => exact absurd ((rows_eq_nil _).mp hr) hk
      | cons a as => rfl
    have hlen : (rows (keptPoints R t ranges msg.points)).length / 3 =
        (keptPoints R t ranges msg.points).length := by
      rw [rows_length]; omega
    unfold saveCalib
    rw [if_neg (by simp [hne]), hf]
    simp only [calibShape, hlen]
    simp [hp]

theorem processCloudWithCalib_cons {α : Type} [Mul α] [Add α] [LE α]
    [DecidableRel (fun (a b : α) => a ≤ b)]
    (R : Fin 9 → α) (t : Fin 3 → α) (ranges : Fin 6 → α) (num_frames : Int)
    (msg : PointCloudMsg α) (stuffed : List (PointCloudMsg α)) (s : ExportState α) :
    processCloudWithCalib R t ranges num_frames (msg :: stuffed) s =
      if stopTest msg.seq num_frames then
        Outcome.stopped stuffed
          ⟨s.free_cloud_queue ++ [msg], s.files ++ (fileOf R t ranges msg).toList,
            s.fronts ++ (fileOf R t ranges msg).toList.map NpyFile.seq⟩
      else
        processCloudWithCalib R t ranges num_frames stuffed
          ⟨s.free_cloud_queue ++ [msg], s.files ++ (fileOf R t ranges msg).toList,
            s.fronts ++ (fileOf R t ranges msg).toList.map NpyFile.seq⟩ := by
  rw [processCloudWithCalib, saveCalib_calibBuf]
  rfl

theorem exists_first_split {β : Type} (P : β → Prop) (l : List β) (h : ∃ m ∈ l, P m) :
    ∃ pre f post, l = pre ++ f :: post ∧ (∀ m ∈ pre, ¬ P m) ∧ P f := by
  classical
  induction l with
  | nil => simp at h
  | cons a l ih =>
    by_cases ha : P a
    · exact ⟨[], a, l, rfl, by simp, ha⟩
    · have h2 : ∃ m ∈ l, P m := by
        obtain ⟨m, hm, hPm⟩ := h
        rcases List.mem_cons.mp hm with rfl | hm
        · exact absurd hPm ha
        · exact ⟨m, hm, hPm⟩
      obtain ⟨pre, f, post, hl, hpre, hf⟩ := ih h2
      refine ⟨a :: pre, f, post, by simp [hl], ?_, hf⟩
      intro m hm
      rcases List.mem_cons.mp hm with rfl | hm
      · exact ha
      · exact hpre m hm

theorem processCloudWithCalib_split {α : Type} [Mul α] [Add α] [LE α]
    [DecidableRel (fun (a b : α) => a ≤ b)]
    (R : Fin 9 → α) (t : Fin 3 → α) (ranges : Fin 6 → α) (num_frames : Int)
    (pre : List (PointCloudMsg α)) (f : PointCloudMsg α) (post : List (PointCloudMsg α))
    (s : ExportState α)
    (hpre : ∀ m ∈ pre, stopTest m.seq num_frames = false)
    (hf : stopTest f.seq num_frames = true) :
    processCloudWithCalib R t ranges num_frames (pre ++ f :: post) s =
      Outcome.stopped post
        ⟨s.free_cloud_queue ++ (pre ++ [f]),
          s.files ++ (pre ++ [f]).filterMap (fileOf R t ranges),
          s.fronts ++ ((pre ++ [f]).filterMap (fileOf R t ranges)).map NpyFile.seq⟩ := by
  induction pre generalizing s with
  | nil =>
    rw [List.nil_append, processCloudWithCalib_cons, if_pos hf]
    cases hfo : fileOf R t ranges f <;> simp [hfo]
  | cons a pre ih =>
    have ha : stopTest a.seq num_frames = false := hpre a (List.mem_cons_self _ _)
    have hpre2 : ∀ m ∈ pre, stopTest m.seq num_frames = false :=
      fun m hm => hpre m (List.mem_cons_of_mem _ hm)
    rw [List.cons_append, processCloudWithCalib_cons, if_neg (by simp [ha]), ih _ hpre2]
    cases hfo : fileOf R t ranges a <;> simp [hfo]

/-! ## Claims on the calibrated export loop -/

/-- C2: with a frame-count bound `0 ≤ num_frames < 2^31` and a delivery queue
that holds a frame whose sequence number exceeds the bound,
`processCloudWithCalib` reaches its `break` right after the first such frame
`f`: the queue splits as `pre ++ f :: post` with no frame of `pre` above the
bound, the frames `pre ++ [f]` are processed in queue order and `post` is left
in the queue, every processed frame is pushed to the free pool in that order,
and the files written are those of the processed frames that keep at least one
point in range, in the same order, with `points.front()` read for exactly
those frames. A frame has a file exactly when it keeps a point, and the file
carries the frame's sequence number and the buffer of the frame. -/
theorem processCloudWithCalib_drain {α : Type} [Mul α] [Add α] [LE α]
    [DecidableRel (fun (a b : α) => a ≤ b)]
    (R : Fin 9 → α) (t : Fin 3 → α) (ranges : Fin 6 → α) (num_frames : Int)
    (h0 : 0 ≤ num_frames) (h1 : num_frames < 2 ^ 31)
    (stuffed : List (PointCloudMsg α)) (s : ExportState α)
    (h : ∃ m ∈ stuffed, num_frames < (m.seq : Int)) :
    (∃ pre f post, stuffed = pre ++ f :: post
      ∧ (∀ m ∈ pre, (m.seq : Int) ≤ num_frames)
      ∧ num_frames < (f.seq : Int)
      ∧ processCloudWithCalib R t ranges num_frames stuffed s =
          Outcome.stopped post
            ⟨s.free_cloud_queue ++ (pre ++ [f]),
              s.files ++ (pre ++ [f]).filterMap (fileOf R t ranges),
              s.fronts ++ ((pre ++ [f]).filterMap (fileOf R t ranges)).map NpyFile.seq⟩)
    ∧ (∀ m : PointCloudMsg α,
        ((fileOf R t ranges m).isSome ↔ keptPoints R t ranges m.points ≠ [])
        ∧ ∀ file, fileOf R t ranges m = some file →
            file.seq = m.seq ∧ file.data = calibBuf R t ranges m.points
            ∧ file.shape = ((keptPoints R t ranges m.points).length, 3)
            ∧ m.points.head?.map PointXYZIT.timestamp = some file.stamp) := by
  constructor
  · obtain ⟨pre, f, post, hl, hpre, hf⟩ :=
      exists_first_split (fun m : PointCloudMsg α => num_frames < (m.seq : Int)) stuffed h
    refine ⟨pre, f, post, hl, fun m hm => not_lt.mp (hpre m hm), hf, ?_⟩
    rw [hl]
    apply processCloudWithCalib_split
    · intro m hm
      have hn := hpre m hm
      cases hst : stopTest m.seq num_frames
      · rfl
      · exact absurd ((stopTest_iff m.seq num_frames h0 h1).mp hst) hn
    · exact (stopTest_iff f.seq num_frames h0 h1).mpr hf
  · intro m
    by_cases hk : keptPoints R t ranges m.points = []
    · simp [fileOf_eq_none R t ranges m hk, hk]
    · obtain ⟨p, ps, hp, hf⟩ := fileOf_eq_some R t ranges m hk
      refine ⟨by simp [hf, hk], ?_⟩
      intro file hfile
      rw [hf] at hfile
      cases hfile
      simp [calibBuf_eq_rows, hp]

/-- C2, at the three sample frames with bound 1: the loop stops after the
second frame, the only file is that of the first frame and both processed
frames are in the free pool. -/
theorem processCloudWithCalib_drain_witness :
    (0 : Int) ≤ 1 ∧ (1 : Int) < 2 ^ 31
    ∧ (∃ m ∈ sampleFrames, (1 : Int) < (m.seq : Int))
    ∧ (∃ post st,
        processCloudWithCalib identityR zeroT box05 1 sampleFrames emptyExport =
          Outcome.stopped post st)
    ∧ processCloudWithCalib identityR zeroT box05 1 sampleFrames emptyExport =
        Outcome.stopped [⟨3, [samplePoint 9 9 9 300]⟩]
          ⟨[⟨1, [samplePoint 1 2 3 100, samplePoint (-10) (-10) (-10) 101]⟩, ⟨2, []⟩],
            [⟨1, 100, [1, 2, 3], (1, 3)⟩], [1]⟩ := by
  have hex : ∃ m ∈ sampleFrames, (1 : Int) < (m.seq : Int) :=
    ⟨⟨2, []⟩, by simp [sampleFrames], by decide⟩
  refine ⟨by decide, by decide, hex, ?_, by decide⟩
  obtain ⟨⟨_, _, post, _, _, _, hrun⟩, _⟩ :=
    processCloudWithCalib_drain (identityR : Fin 9 → Int) zeroT box05 1
      (by decide) (by decide) sampleFrames emptyExport hex
  exact ⟨post, _, hrun⟩

/-! ## Identity calibration and rejected frames -/

theorem calibPoint_identity {α : Type} [Mul α] [Add α] [Zero α] [One α]
    (p : PointXYZIT α) (hzero : (0 : α) + 0 = 0)
    (hfin : ∀ a ∈ [p.x, p.y, p.z], 1 * a = a ∧ 0 * a = 0 ∧ a + 0 = a ∧ 0 + a = a) :
    calibPoint identityR zeroT p = xyz p := by
  obtain ⟨hx1, hx0, hxa, _⟩ := hfin p.x (by simp)
  obtain ⟨hy1, hy0, hya, hya2⟩ := hfin p.y (by simp)
  obtain ⟨hz1, hz0, hza, hza2⟩ := hfin p.z (by simp)
  have hR : ∀ i : Fin 9, (identityR : Fin 9 → α) i = if i = 0 ∨ i = 4 ∨ i = 8 then 1 else 0 :=
    fun _ => rfl
  have ht : ∀ i : Fin 3, (zeroT : Fin 3 → α) i = 0 := fun _ => rfl
  simp only [calibPoint, xyz, hR, ht]
  simp only [Fin.isValue, true_or, or_true, if_true, Fin.reduceEq, or_self, if_false,
    hx1, hx0, hxa, hy1, hy0, hya, hya2, hz1, hz0, hza, hza2, hzero]

theorem keptPoints_identity {α : Type} [Mul α] [Add α] [Zero α] [One α] [LE α]
    [DecidableRel (fun (a b : α) => a ≤ b)] (ranges : Fin 6 → α)
    (points : List (PointXYZIT α)) (hzero : (0 : α) + 0 = 0)
    (hfin : ∀ p ∈ points, ∀ a ∈ [p.x, p.y, p.z],
      1 * a = a ∧ 0 * a = 0 ∧ a + 0 = a ∧ 0 + a = a)
    (hbox : ∀ p ∈ points, ranges 0 ≤ p.x ∧ p.x ≤ ranges 1 ∧ ranges 2 ≤ p.y ∧ p.y ≤ ranges 3 ∧
      ranges 4 ≤ p.z ∧ p.z ≤ ranges 5) :
    keptPoints identityR zeroT ranges points = points.map xyz := by
  unfold keptPoints
  have hmap : points.map (calibPoint identityR zeroT) = points.map xyz :=
    List.map_congr_left (fun p hp => calibPoint_identity p hzero (hfin p hp))
  rw [hmap, List.filter_eq_self]
  intro q hq
  obtain ⟨p, hp, rfl⟩ := List.mem_map.mp hq
  simpa [xyz] using hbox p hp

theorem keptPoints_rejected {α : Type} [Mul α] [Add α] [LE α]
    [DecidableRel (fun (a b : α) => a ≤ b)]
    (R : Fin 9 → α) (t : Fin 3 → α) (ranges : Fin 6 → α) (points : List (PointXYZIT α))
    (hrej : ∀ p ∈ points, ¬ (ranges 0 ≤ (calibPoint R t p).1 ∧ (calibPoint R t p).1 ≤ ranges 1 ∧
      ranges 2 ≤ (calibPoint R t p).2.1 ∧ (calibPoint R t p).2.1 ≤ ranges 3 ∧
      ranges 4 ≤ (calibPoint R t p).2.2 ∧ (calibPoint R t p).2.2 ≤ ranges 5)) :
    keptPoints R t ranges points = [] := by
  unfold keptPoints
  rw [List.filter_eq_nil_iff]
  intro q hq
  obtain ⟨p, hp, rfl⟩ := List.mem_map.mp hq
  simpa using hrej p hp

theorem FloatVal.laws_iff_fin (a : FloatVal) :
    (1 * a = a ∧ 0 * a = 0 ∧ a + 0 = a ∧ 0 + a = a) ↔ ∃ v, a = FloatVal.fin v := by
  have hmul : ∀ x y : FloatVal, x * y = FloatVal.mul x y := fun _ _ => rfl
  have hadd : ∀ x y : FloatVal, x + y = FloatVal.add x y := fun _ _ => rfl
  have h0 : (0 : FloatVal) = FloatVal.fin 0 := rfl
  have h1 : (1 : FloatVal) = FloatVal.fin 1 := rfl
  cases a <;> simp [hmul, hadd, h0, h1, FloatVal.mul, FloatVal.add]

/-- C9, as stated, fails: with the identity rotation and the zero
translation, the point `(1, +inf, 3)` lies in the box whose bounds are minus
and plus infinity, yet its new `x` and `z` are `1 + 0 * inf = NaN`, the range
test fails and the buffer is empty, not the input row. -/
theorem calibBuf_identity_drops_infinite :
    (∀ p ∈ [infPoint],
      infBox 0 ≤ p.x ∧ p.x ≤ infBox 1 ∧ infBox 2 ≤ p.y ∧ p.y ≤ infBox 3 ∧
      infBox 4 ≤ p.z ∧ p.z ≤ infBox 5)
    ∧ calibPoint identityR zeroT infPoint = (FloatVal.nan, FloatVal.posInf, FloatVal.nan)
    ∧ calibBuf identityR zeroT infBox [infPoint] = []
    ∧ rows ([infPoint].map xyz) = [FloatVal.fin 1, FloatVal.posInf, FloatVal.fin 3] := by
  decide

/-- C9, amended: with the identity rotation, the zero translation and a range
box that contains every point of the frame, and with every coordinate `a` of
the frame finite, in the sense that `1 * a = a`, `0 * a = 0` and
`a + 0 = 0 + a = a` (for floats `0 * a = 0` holds of the finite values and of
no other), the buffer `processCloudWithCalib` builds is the input: the
`(x, y, z)` of every point, in input order, so as many rows as the frame has
points. -/
theorem calibBuf_identity {α : Type} [Mul α] [Add α] [Zero α] [One α] [LE α]
    [DecidableRel (fun (a b : α) => a ≤ b)] (ranges : Fin 6 → α)
    (points : List (PointXYZIT α)) (hzero : (0 : α) + 0 = 0)
    (hfin : ∀ p ∈ points, ∀ a ∈ [p.x, p.y, p.z],
      1 * a = a ∧ 0 * a = 0 ∧ a + 0 = a ∧ 0 + a = a)
    (hbox : ∀ p ∈ points, ranges 0 ≤ p.x ∧ p.x ≤ ranges 1 ∧ ranges 2 ≤ p.y ∧ p.y ≤ ranges 3 ∧
      ranges 4 ≤ p.z ∧ p.z ≤ ranges 5) :
    calibBuf identityR zeroT ranges points = rows (points.map xyz)
    ∧ (calibBuf identityR zeroT ranges points).length = 3 * points.length
    ∧ calibShape (calibBuf identityR zeroT ranges points) = (points.length, 3) := by
  have hbuf : calibBuf identityR zeroT ranges points = rows (points.map xyz) := by
    rw [calibBuf_eq_rows, keptPoints_identity ranges points hzero hfin hbox]
  refine ⟨hbuf, ?_, ?_⟩
  · rw [hbuf, rows_length, List.length_map]
  · simp [calibShape, hbuf, rows_length]

/-- C9 amended, at two points with finite coordinates in the float values,
inside the box of the infinities. -/
theorem calibBuf_identity_witness :
    (0 : FloatVal) + 0 = 0
    ∧ (∀ p ∈ [finPoint 1 2 3, finPoint (-5) 0 4], ∀ a ∈ [p.x, p.y, p.z],
        1 * a = a ∧ 0 * a = 0 ∧ a + 0 = a ∧ 0 + a = a)
    ∧ (∀ p ∈ [finPoint 1 2 3, finPoint (-5) 0 4],
        infBox 0 ≤ p.x ∧ p.x ≤ infBox 1 ∧ infBox 2 ≤ p.y ∧ p.y ≤ infBox 3 ∧
        infBox 4 ≤ p.z ∧ p.z ≤ infBox 5)
    ∧ calibBuf identityR zeroT infBox [finPoint 1 2 3, finPoint (-5) 0 4]
        = [FloatVal.fin 1, FloatVal.fin 2, FloatVal.fin 3,
            FloatVal.fin (-5), FloatVal.fin 0, FloatVal.fin 4] := by
  have hzero : (0 : FloatVal) + 0 = 0 := by decide
  have hfin : ∀ p ∈ [finPoint 1 2 3, finPoint (-5) 0 4], ∀ a ∈ [p.x, p.y, p.z],
      1 * a = a ∧ 0 * a = 0 ∧ a + 0 = a ∧ 0 + a = a := by decide
  have hbox : ∀ p ∈ [finPoint 1 2 3, finPoint (-5) 0 4],
      infBox 0 ≤ p.x ∧ p.x ≤ infBox 1 ∧ infBox 2 ≤ p.y ∧ p.y ≤ infBox 3 ∧
      infBox 4 ≤ p.z ∧ p.z ≤ infBox 5 := by decide
  exact ⟨hzero, hfin, hbox, (calibBuf_identity infBox _ hzero hfin hbox).1⟩

/-- C10: when no transformed point of a frame lies inside the range box (a
frame without points included), the buffer `processCloudWithCalib` builds for
it is empty, the save step leaves the files and the list of `front()` reads as
they were, the frame is pushed to the free pool, and the loop then applies the
stop test to the frame's sequence number: it stops there or goes on with the
rest of the queue. -/
theorem processCloudWithCalib_rejected {α : Type} [Mul α] [Add α] [LE α]
    [DecidableRel (fun (a b : α) => a ≤ b)]
    (R : Fin 9 → α) (t : Fin 3 → α) (ranges : Fin 6 → α) (num_frames : Int)
    (msg : PointCloudMsg α) (stuffed : List (PointCloudMsg α)) (s : ExportState α)
    (hrej : ∀ p ∈ msg.points,
      ¬ (ranges 0 ≤ (calibPoint R t p).1 ∧ (calibPoint R t p).1 ≤ ranges 1 ∧
      ranges 2 ≤ (calibPoint R t p).2.1 ∧ (calibPoint R t p).2.1 ≤ ranges 3 ∧
      ranges 4 ≤ (calibPoint R t p).2.2 ∧ (calibPoint R t p).2.2 ≤ ranges 5)) :
    calibBuf R t ranges msg.points = []
    ∧ calibShape (calibBuf R t ranges msg.points) = (0, 3)
    ∧ saveCalib msg (calibBuf R t ranges msg.points) s = some s
    ∧ processCloudWithCalib R t ranges num_frames (msg :: stuffed) s =
        (if stopTest msg.seq num_frames then
          Outcome.stopped stuffed ⟨s.free_cloud_queue ++ [msg], s.files, s.fronts⟩
        else
          processCloudWithCalib R t ranges num_frames stuffed
            ⟨s.free_cloud_queue ++ [msg], s.files, s.fronts⟩) := by
  have hk : keptPoints R t ranges msg.points = [] := keptPoints_rejected R t ranges _ hrej
  have hbuf : calibBuf R t ranges msg.points = [] := by
    rw [calibBuf_eq_rows, hk]; rfl
  refine ⟨hbuf, by simp [hbuf, calibShape], by simp [hbuf, saveCalib], ?_⟩
  rw [processCloudWithCalib_cons, fileOf_eq_none R t ranges msg hk]
  simp

/-- C10, at a frame whose only point `(9,9,9)` is outside `[0,5]^3`, with
bound 1 and sequence number 3: no file, the frame in the free pool, and the
loop stops. -/
theorem processCloudWithCalib_rejected_witness :
    (∀ p ∈ [samplePoint 9 9 9 300],
      ¬ (box05 0 ≤ (calibPoint identityR zeroT p).1 ∧ (calibPoint identityR zeroT p).1 ≤ box05 1 ∧
      box05 2 ≤ (calibPoint identityR zeroT p).2.1 ∧ (calibPoint identityR zeroT p).2.1 ≤ box05 3 ∧
      box05 4 ≤ (calibPoint identityR zeroT p).2.2 ∧ (calibPoint identityR zeroT p).2.2 ≤ box05 5))
    ∧ processCloudWithCalib identityR zeroT box05 1 [⟨3, [samplePoint 9 9 9 300]⟩] emptyExport =
        Outcome.stopped [] ⟨[⟨3, [samplePoint 9 9 9 300]⟩], [], []⟩ := by
  have hrej : ∀ p ∈ (⟨3, [samplePoint 9 9 9 300]⟩ : PointCloudMsg Int).points,
      ¬ (box05 0 ≤ (calibPoint identityR zeroT p).1 ∧ (calibPoint identityR zeroT p).1 ≤ box05 1 ∧
      box05 2 ≤ (calibPoint identityR zeroT p).2.1 ∧ (calibPoint identityR zeroT p).2.1 ≤ box05 3 ∧
      box05 4 ≤ (calibPoint identityR zeroT p).2.2 ∧
      (calibPoint identityR zeroT p).2.2 ≤ box05 5) := by decide
  refine ⟨hrej, ?_⟩
  rw [(processCloudWithCalib_rejected identityR zeroT box05 1 ⟨3, [samplePoint 9 9 9 300]⟩ []
    emptyExport hrej).2.2.2]
  decide

/-! ## The real-time publisher and `get` -/

theorem deliverAll_stuffed {α : Type} (frames : List (PointCloudMsg α)) (c : Client α) :
    deliverAll frames c = { c with stuffed_cloud_queue := c.stuffed_cloud_queue ++ frames } := by
  induction frames generalizing c with
  | nil => simp [deliverAll]
  | cons f fs ih =>
    have hstep : deliverAll (f :: fs) c = deliverAll fs (returnPointCloudCallback f c) := rfl
    rw [hstep, ih]
    simp [returnPointCloudCallback]

theorem processCloudThread_drains {α : Type} [Neg α] (q : List (PointCloudMsg α))
    (c : Client α) (hq : c.stuffed_cloud_queue = q) (hstop : c.should_stop_processing = false) :
    processCloudThread q.length c =
      { c with
        stuffed_cloud_queue := []
        free_cloud_queue := c.free_cloud_queue ++ q
        has_new_data := c.has_new_data || !q.isEmpty
        latest_cloud_data :=
          match q.getLast? with
          | some msg => convertPointCloudMsg msg PointCloudData.new
          | none => c.latest_cloud_data } := by
  induction q generalizing c with
  | nil =>
    cases c
    simp_all [processCloudThread]
  | cons m q ih =>
    have hiter : processCloudIter c =
        { c with
          stuffed_cloud_queue := q
          latest_cloud_data := convertPointCloudMsg m PointCloudData.new
          has_new_data := true
          free_cloud_queue := c.free_cloud_queue ++ [m] } := by
      simp [processCloudIter, hstop, hq]
    rw [List.length_cons, processCloudThread, hiter]
    rw [ih { c with
          stuffed_cloud_queue := q
          latest_cloud_data := convertPointCloudMsg m PointCloudData.new
          has_new_data := true
          free_cloud_queue := c.free_cloud_queue ++ [m] } rfl hstop]
    cases q with
    | nil => simp
    | cons a q =>
      have hl : (a :: q).getLast? = some ((a :: q).getLast (by simp)) :=
        List.getLast?_eq_getLast _ _
      simp [List.getLast?_cons_cons, hl]

theorem get_fresh {α : Type} (c : Client α) (point_cloud : PointCloudData α)
    (hrun : c.running = true) (hstop : c.should_stop_processing = false)
    (hnew : c.has_new_data = true) :
    get c point_cloud =
      some (true,
        { c with latest_cloud_data := c.latest_cloud_data.clear, has_new_data := false },
        c.latest_cloud_data) := by
  simp [get, hrun, hstop, hnew]

/-- C3: for a running client whose stop flag is not set and any frames
`f_1..f_N`, `N ≥ 1`, delivered by the driver, once the publisher loop has
made as many passes as there are frames in the delivery queue (so it has
handled all of them, with no `get` in between), the queue is empty and one
`get` returns `true` with exactly `convertPointCloudMsg f_N` in the caller's
object, whatever the earlier frames and the caller's object were; the cell is
then cleared and not fresh. -/
theorem get_after_publishing {α : Type} [Neg α] (c : Client α)
    (frames : List (PointCloudMsg α)) (point_cloud : PointCloudData α)
    (hrun : c.running = true) (hstop : c.should_stop_processing = false)
    (hne : frames ≠ []) :
    (processCloudThread (deliverAll frames c).stuffed_cloud_queue.length
        (deliverAll frames c)).stuffed_cloud_queue = []
    ∧ ∃ c1, get (processCloudThread (deliverAll frames c).stuffed_cloud_queue.length
          (deliverAll frames c)) point_cloud
        = some (true, c1, convertPointCloudMsg (frames.getLast hne) PointCloudData.new)
      ∧ c1.has_new_data = false
      ∧ c1.latest_cloud_data = PointCloudData.new := by
  have hd := deliverAll_stuffed frames c
  have hlast : (c.stuffed_cloud_queue ++ frames).getLast? = some (frames.getLast hne) := by
    rw [List.getLast?_append_of_ne_nil _ hne, List.getLast?_eq_getLast _ hne]
  have hempty : (c.stuffed_cloud_queue ++ frames).isEmpty = false := by
    cases frames with
    | nil => exact absurd rfl hne
    | cons f fs => cases c.stuffed_cloud_queue <;> rfl
  rw [processCloudThread_drains (deliverAll frames c).stuffed_cloud_queue (deliverAll frames c)
    rfl (by rw [hd]; exact hstop)]
  rw [hd]
  refine ⟨rfl, ?_⟩
  simp only [hlast, hempty, Bool.not_false, Bool.or_true]
  exact ⟨_, get_fresh _ point_cloud hrun hstop rfl, rfl, rfl⟩

/-- C3, at the three sample frames delivered to a client that has been
initialized: `get` returns the conversion of the third frame. -/
theorem get_after_publishing_witness :
    sampleRunning.running = true ∧ sampleRunning.should_stop_processing = false
    ∧ sampleFrames ≠ []
    ∧ ∃ c1, get (processCloudThread (deliverAll sampleFrames sampleRunning).stuffed_cloud_queue.length
          (deliverAll sampleFrames sampleRunning)) PointCloudData.new
        = some (true, c1, ⟨[-9], [9], [9], [7], [300], 3, 1⟩) := by
  refine ⟨by decide, by decide, by decide, ?_⟩
  obtain ⟨_, c1, hget, _, _⟩ :=
    get_after_publishing sampleRunning sampleFrames PointCloudData.new
      (by decide) (by decide) (by decide)
  exact ⟨c1, by rw [hget]; rfl⟩

/-- C4: `get` on a client that is not running returns `false` at once (it
does not wait, whatever the cell, the freshness flag and the stop flag hold);
the caller's object is as it was and the client is as it was except for the
last-error register, which holds "Client is not running"; in particular the
cell and the freshness flag are unchanged. -/
theorem get_not_running {α : Type} (c : Client α) (point_cloud : PointCloudData α)
    (hrun : c.running = false) :
    get c point_cloud =
        some (false, { c with last_error := "Client is not running" }, point_cloud)
    ∧ ∀ r c1 out, get c point_cloud = some (r, c1, out) →
        r = false ∧ out = point_cloud
        ∧ c1.latest_cloud_data = c.latest_cloud_data
        ∧ c1.has_new_data = c.has_new_data
        ∧ c1.last_error = "Client is not running" := by
  have hget : get c point_cloud =
      some (false, { c with last_error := "Client is not running" }, point_cloud) := by
    simp [get, hrun, set_error]
  refine ⟨hget, ?_⟩
  intro r c1 out h
  rw [hget] at h
  simp only [Option.some.injEq, Prod.mk.injEq] at h
  obtain ⟨rfl, rfl, rfl⟩ := h
  exact ⟨rfl, rfl, rfl, rfl, rfl⟩

/-- C4, at a freshly constructed client. -/
theorem get_not_running_witness :
    sampleNew.running = false
    ∧ get sampleNew PointCloudData.new =
        some (false, { sampleNew with last_error := "Client is not running" },
          PointCloudData.new) :=
  ⟨by decide, (get_not_running sampleNew PointCloudData.new (by decide)).1⟩

/-! ## Sessions: no frame is returned twice -/

theorem get_true_inv {α : Type} (c c1 : Client α) (point_cloud out : PointCloudData α)
    (h : get c point_cloud = some (true, c1, out)) :
    c.has_new_data = true
    ∧ c1 = { c with latest_cloud_data := c.latest_cloud_data.clear, has_new_data := false }
    ∧ out = c.latest_cloud_data := by
  unfold get at h
  cases hrun : c.running <;> cases hstop : c.should_stop_processing <;>
    cases hnew : c.has_new_data <;> simp [hrun, hstop, hnew] at h
  obtain ⟨rfl, rfl⟩ := h
  simp [hrun, hstop]

theorem get_false_inv {α : Type} (c c1 : Client α) (point_cloud out : PointCloudData α)
    (h : get c point_cloud = some (false, c1, out)) :
    c1.has_new_data = c.has_new_data ∧ c1.latest_cloud_data = c.latest_cloud_data := by
  unfold get at h
  cases hrun : c.running <;> cases hstop : c.should_stop_processing <;>
    cases hnew : c.has_new_data <;> simp [hrun, hstop, hnew, set_error] at h
  all_goals
    obtain ⟨rfl, _⟩ := h
    simp [hnew]

theorem Session.step_inv {α : Type} [Neg α] (s : Session α) (a : Action α)
    (hfresh : s.client.has_new_data = true →
      ∃ pre msg, s.published = pre ++ [msg]
        ∧ List.Sublist s.returned
            (pre.map (fun m => convertPointCloudMsg m PointCloudData.new))
        ∧ s.client.latest_cloud_data = convertPointCloudMsg msg PointCloudData.new)
    (hstale : s.client.has_new_data = false →
      List.Sublist s.returned
        (s.published.map (fun m => convertPointCloudMsg m PointCloudData.new))) :
    ((s.step a).client.has_new_data = true →
      ∃ pre msg, (s.step a).published = pre ++ [msg]
        ∧ List.Sublist (s.step a).returned
            (pre.map (fun m => convertPointCloudMsg m PointCloudData.new))
        ∧ (s.step a).client.latest_cloud_data = convertPointCloudMsg msg PointCloudData.new)
    ∧ ((s.step a).client.has_new_data = false →
      List.Sublist (s.step a).returned
        ((s.step a).published.map (fun m => convertPointCloudMsg m PointCloudData.new))) := by
  have hall : List.Sublist s.returned
      (s.published.map (fun m => convertPointCloudMsg m PointCloudData.new)) := by
    cases hnew : s.client.has_new_data
    · exact hstale hnew
    · obtain ⟨pre, msg, hp, hsub, _⟩ := hfresh hnew
      rw [hp, List.map_append]
      exact hsub.trans (List.sublist_append_left _ _)
  cases a with
  | deliver msg => exact ⟨hfresh, hstale⟩
  | publish =>
    cases hstop : s.client.should_stop_processing
    · rcases hq : s.client.stuffed_cloud_queue with _ | ⟨m, rest⟩
      · have hc : processCloudIter s.client = s.client := by
          simp [processCloudIter, hstop, hq]
        simp only [Session.step, handledFrame, hstop, hq, hc, List.head?_nil]
        exact ⟨hfresh, hstale⟩
      · simp only [Session.step, handledFrame, processCloudIter, hstop, hq, List.head?_cons]
        refine ⟨fun _ => ⟨s.published, m, rfl, hall, rfl⟩, ?_⟩
        intro h
        simp at h
    · have hc : processCloudIter s.client = s.client := by
        simp [processCloudIter, hstop]
      simp only [Session.step, handledFrame, hstop, hc]
      exact ⟨hfresh, hstale⟩
  | get =>
    rcases hg : get s.client PointCloudData.new with _ | ⟨r, c1, out⟩
    · simp only [Session.step, hg]
      exact ⟨hfresh, hstale⟩
    · cases r
      · obtain ⟨h1, h2⟩ := get_false_inv _ _ _ _ hg
        simp only [Session.step, hg]
        refine ⟨fun h => ?_, fun h => hstale (h1 ▸ h)⟩
        obtain ⟨pre, msg, hp, hsub, hl⟩ := hfresh (h1 ▸ h)
        exact ⟨pre, msg, hp, hsub, h2.trans hl⟩
      · obtain ⟨hnew, hc1, hout⟩ := get_true_inv _ _ _ _ hg
        simp only [Session.step, hg]
        subst hc1
        refine ⟨fun h => by simp at h, fun _ => ?_⟩
        obtain ⟨pre, msg, hp, hsub, hl⟩ := hfresh hnew
        rw [hp, List.map_append, hout, hl]
        exact List.Sublist.append hsub (List.Sublist.refl _)

theorem Session.run_inv {α : Type} [Neg α] (as : List (Action α)) (s : Session α)
    (hfresh : s.client.has_new_data = true →
      ∃ pre msg, s.published = pre ++ [msg]
        ∧ List.Sublist s.returned
            (pre.map (fun m => convertPointCloudMsg m PointCloudData.new))
        ∧ s.client.latest_cloud_data = convertPointCloudMsg msg PointCloudData.new)
    (hstale : s.client.has_new_data = false →
      List.Sublist s.returned
        (s.published.map (fun m => convertPointCloudMsg m PointCloudData.new))) :
    List.Sublist (s.run as).returned
      ((s.run as).published.map (fun m => convertPointCloudMsg m PointCloudData.new)) := by
  induction as generalizing s with
  | nil =>
    cases hnew : s.client.has_new_data
    · exact hstale hnew
    · obtain ⟨pre, msg, hp, hsub, _⟩ := hfresh hnew
      simp only [Session.run, List.foldl_nil]
      rw [hp, List.map_append]
      exact hsub.trans (List.sublist_append_left _ _)
  | cons a as ih =>
    have hstep := Session.step_inv s a hfresh hstale
    exact ih (s.step a) hstep.1 hstep.2

/-- C5: when `get` returns `true`, the caller's object holds what the cell
held just before the call, and afterwards the freshness flag is `false` and
the cell is empty (no points, frame id 0, point count 0). Hence in every
session of driver deliveries, publisher passes and `get` calls that starts
with a cell that is not fresh, the results of the successful `get` calls, in
order, are a sublist of the conversions of the frames the publisher handled,
in order: each success takes a different published frame, and there are at
most as many successes as published frames. -/
theorem get_takes_frame {α : Type} [Neg α] (c : Client α) (as : List (Action α))
    (hstale : c.has_new_data = false) :
    (∀ (c0 c1 : Client α) (point_cloud out : PointCloudData α),
      get c0 point_cloud = some (true, c1, out) →
        out = c0.latest_cloud_data ∧ c1.has_new_data = false
        ∧ c1.latest_cloud_data = ⟨[], [], [], [], [], 0, 0⟩)
    ∧ List.Sublist (Session.run ⟨c, [], []⟩ as).returned
        ((Session.run ⟨c, [], []⟩ as).published.map
          (fun m => convertPointCloudMsg m PointCloudData.new))
    ∧ (Session.run ⟨c, [], []⟩ as).returned.length
        ≤ (Session.run ⟨c, [], []⟩ as).published.length := by
  have hsub : List.Sublist (Session.run ⟨c, [], []⟩ as).returned
      ((Session.run ⟨c, [], []⟩ as).published.map
        (fun m => convertPointCloudMsg m PointCloudData.new)) := by
    apply Session.run_inv
    · intro h
      rw [hstale] at h
      cases h
    · intro _
      exact List.nil_sublist _
  refine ⟨?_, hsub, ?_⟩
  · intro c0 c1 point_cloud out h
    obtain ⟨_, rfl, rfl⟩ := get_true_inv c0 c1 point_cloud out h
    exact ⟨rfl, rfl, rfl⟩
  · simpa using hsub.length_le

/-- C5, at a session on an initialized client: three frames are published,
the first and the third are returned, once each. -/
theorem get_takes_frame_witness :
    sampleRunning.has_new_data = false
    ∧ (Session.run ⟨sampleRunning, [], []⟩
        [Action.deliver ⟨1, [samplePoint 1 2 3 100]⟩, Action.publish, Action.get, Action.get,
          Action.deliver ⟨2, [samplePoint 4 5 6 200]⟩, Action.deliver ⟨3, [samplePoint 9 9 9 300]⟩,
          Action.publish, Action.publish, Action.get, Action.get]).returned
        = [⟨[-2], [1], [3], [7], [100], 1, 1⟩, ⟨[-9], [9], [9], [7], [300], 3, 1⟩]
    ∧ (Session.run ⟨sampleRunning, [], []⟩
        [Action.deliver ⟨1, [samplePoint 1 2 3 100]⟩, Action.publish, Action.get, Action.get,
          Action.deliver ⟨2, [samplePoint 4 5 6 200]⟩, Action.deliver ⟨3, [samplePoint 9 9 9 300]⟩,
          Action.publish, Action.publish, Action.get, Action.get]).returned.length
        ≤ (Session.run ⟨sampleRunning, [], []⟩
        [Action.deliver ⟨1, [samplePoint 1 2 3 100]⟩, Action.publish, Action.get, Action.get,
          Action.deliver ⟨2, [samplePoint 4 5 6 200]⟩, Action.deliver ⟨3, [samplePoint 9 9 9 300]⟩,
          Action.publish, Action.publish, Action.get, Action.get]).published.length :=
  ⟨by decide, by decide, (get_takes_frame sampleRunning _ (by decide)).2.2⟩

/-! ## `get_numpy` -/

/-- C7: `stop` on a client that is not running returns the client as it is:
no flag changes, the cell is untouched, the thread is not joined and no call
reaches the driver. Hence `stop` after `stop` changes nothing more, and after
`stop` on a running client `running` and `connected` are both `false` (with
the stop flag set and one `stop` call made on the driver). -/
theorem stop_idempotent {α : Type} (c : Client α) :
    (c.running = false → stop c = c)
    ∧ stop (stop c) = stop c
    ∧ (c.running = true →
        (stop c).running = false ∧ (stop c).connected = false
        ∧ (stop c).should_stop_processing = true
        ∧ (stop c).driver = c.driver ++ [DriverCall.stop]) := by
  refine ⟨?_, ?_, ?_⟩
  · intro h
    simp [stop, h]
  · cases h : c.running
    · simp [stop, h]
    · have h2 : (stop c).running = false := by simp [stop, h]
      generalize stop c = c2 at h2
      simp [stop, h2]
  · intro h
    simp [stop, h]

/-- C7, at a freshly constructed client and at an initialized one. -/
theorem stop_idempotent_witness :
    sampleNew.running = false ∧ stop sampleNew = sampleNew
    ∧ sampleRunning.running = true
    ∧ (stop sampleRunning).running = false ∧ (stop sampleRunning).connected = false :=
  ⟨by decide, (stop_idempotent sampleNew).1 (by decide), by decide,
    ((stop_idempotent sampleRunning).2.2 (by decide)).1,
    ((stop_idempotent sampleRunning).2.2 (by decide)).2.1⟩

/-- C8: on an uninitialized client (`initialized`, `running` and `connected`
all `false`), when the driver's `init` returns `false` on the parameters,
`initialize` returns `false`; the three flags stay `false`, the publisher
thread is as it was, the only driver calls added are the two registrations
and `init` (no `start`), and the last-error register holds
"Driver initialization failed". When the driver's `init` returns `true` and
the publisher thread member is not joinable (as it is for a client that was
never started), `initialize` returns `true` with `initialized` set (and
`connected` and `running` set, the driver started and the publisher thread
running). With a joinable thread member left behind, as after `force_stop`,
an accepted `initialize` does not return: the thread assignment in `start`
terminates the program. -/
theorem initialize_outcome {α : Type} (driverInit : RSDriverParam → InitOutcome)
    (lidar_ip : String) (msop_port difop_port lidar_type : Nat) (host_ip : String)
    (c : Client α)
    (hinit : c.initialized = false) (hrun : c.running = false) (hconn : c.connected = false) :
    (driverInit (initParam lidar_ip msop_port difop_port lidar_type host_ip c.param)
        = InitOutcome.rejected →
      initClient driverInit lidar_ip msop_port difop_port lidar_type host_ip c =
        some (false,
          { c with
            param := initParam lidar_ip msop_port difop_port lidar_type host_ip c.param
            driver := c.driver ++ [DriverCall.regPointCloudCallback,
              DriverCall.regExceptionCallback, DriverCall.init]
            initialized := false
            running := false
            connected := false
            last_error := "Driver initialization failed" }))
    ∧ (driverInit (initParam lidar_ip msop_port difop_port lidar_type host_ip c.param)
        = InitOutcome.accepted →
      c.processing_thread ≠ ThreadState.running →
      initClient driverInit lidar_ip msop_port difop_port lidar_type host_ip c =
        some (true,
          { c with
            param := initParam lidar_ip msop_port difop_port lidar_type host_ip c.param
            driver := c.driver ++ [DriverCall.regPointCloudCallback,
              DriverCall.regExceptionCallback, DriverCall.init, DriverCall.start]
            initialized := true
            connected := true
            running := true
            should_stop_processing := false
            processing_thread := ThreadState.running }))
    ∧ (driverInit (initParam lidar_ip msop_port difop_port lidar_type host_ip c.param)
        = InitOutcome.accepted →
      c.processing_thread = ThreadState.running →
      initClient driverInit lidar_ip msop_port difop_port lidar_type host_ip c = none) := by
  refine ⟨?_, ?_, ?_⟩
  · intro h
    simp only [initClient, h, set_error]
    rw [hinit, hrun, hconn]
  · intro h hthread
    simp [initClient, h, start, hrun, hthread]
  · intro h hthread
    simp [initClient, h, start, hrun, hthread]

/-- C8, at a freshly constructed client with a driver that rejects and one
that accepts, and at the client left by `force_stop` with a driver that
accepts. -/
theorem initialize_outcome_witness :
    sampleNew.initialized = false ∧ sampleNew.running = false ∧ sampleNew.connected = false
    ∧ sampleNew.processing_thread ≠ ThreadState.running
    ∧ (initClient (fun _ => InitOutcome.rejected) "192.168.1.200" 6699 7788 0 "0.0.0.0"
        sampleNew).map Prod.fst = some false
    ∧ (initClient (fun _ => InitOutcome.accepted) "192.168.1.200" 6699 7788 0 "0.0.0.0"
        sampleNew).map Prod.fst = some true
    ∧ sampleForceStopped.initialized = false ∧ sampleForceStopped.running = false
    ∧ sampleForceStopped.connected = false
    ∧ sampleForceStopped.processing_thread = ThreadState.running
    ∧ initClient (fun _ => InitOutcome.accepted) "192.168.1.200" 6699 7788 0 "0.0.0.0"
        sampleForceStopped = none := by
  have h := initialize_outcome (fun _ => InitOutcome.rejected) "192.168.1.200" 6699 7788 0
    "0.0.0.0" sampleNew (by decide) (by decide) (by decide)
  have h2 := initialize_outcome (fun _ => InitOutcome.accepted) "192.168.1.200" 6699 7788 0
    "0.0.0.0" sampleNew (by decide) (by decide) (by decide)
  have h3 := initialize_outcome (fun _ => InitOutcome.accepted) "192.168.1.200" 6699 7788 0
    "0.0.0.0" sampleForceStopped (by decide) (by decide) (by decide)
  refine ⟨by decide, by decide, by decide, by decide, ?_, ?_, by decide, by decide, by decide,
    by decide, h3.2.2 rfl (by decide)⟩
  · rw [h.1 rfl]
    rfl
  · rw [h2.2.1 rfl (by decide)]
    rfl

/-! ## `convertPointCloudMsg`: the axis permutation -/

theorem convertStep_foldl {α : Type} [Neg α] (points : List (PointXYZIT α))
    (d : PointCloudData α) :
    points.foldl convertStep d =
      { d with
        x := d.x ++ points.map (fun p => -p.y)
        y := d.y ++ points.map (fun p => p.x)
        z := d.z ++ points.map (fun p => p.z)
        intensity := d.intensity ++ points.map (fun p => p.intensity)
        timestamp := d.timestamp ++ points.map (fun p => p.timestamp) } := by
  induction points generalizing d with
  | nil => simp
  | cons p ps ih =>
    rw [List.foldl_cons, ih]
    simp [convertStep]

theorem convertPointCloudMsg_eq {α : Type} [Neg α] (msg : PointCloudMsg α)
    (point_cloud : PointCloudData α) :
    convertPointCloudMsg msg point_cloud =
      ⟨msg.points.map (fun p => -p.y), msg.points.map (fun p => p.x),
        msg.points.map (fun p => p.z), msg.points.map (fun p => p.intensity),
        msg.points.map (fun p => p.timestamp),
        if msg.points.length = 0 then 0 else msg.seq, msg.points.length⟩ := by
  unfold convertPointCloudMsg
  by_cases h : msg.points.length = 0
  · have hnil : msg.points = [] := List.length_eq_zero.mp h
    simp [h, hnil, PointCloudData.clear]
  · simp [h, convertStep_foldl, PointCloudData.clear]

theorem zip_map_axisMap {α : Type} [Neg α] (points : List (PointXYZIT α)) :
    List.zip (points.map (fun p => -p.y))
        (List.zip (points.map (fun p => p.x)) (points.map (fun p => p.z)))
      = points.map (fun p => axisMap (xyz p)) := by
  induction points with
  | nil => rfl
  | cons p ps ih => simp [ih, axisMap, xyz]

/-- C11: for every frame with points `p_1..p_N` and whatever the output
object held, `convertPointCloudMsg` leaves in it exactly `N` points in input
order with `x = -y_i`, `y = x_i`, `z = z_i`, the intensity and timestamp of
each point as they were, and `point_count = N`; the result depends on nothing
but the frame (no calibration, no range test), and the frame is only read.
Where negation is involutive, as it is for floats, the coordinate map applied
four times gives back the coordinates. On the points `(1,2,3)` and `(4,5,6)`
the coordinates are `(-2,1,3)` and `(-5,4,6)`. -/
theorem convertPointCloudMsg_permutes :
    (∀ (α : Type) [Neg α] (msg : PointCloudMsg α) (point_cloud : PointCloudData α),
      (convertPointCloudMsg msg point_cloud).x = msg.points.map (fun p => -p.y)
      ∧ (convertPointCloudMsg msg point_cloud).y = msg.points.map (fun p => p.x)
      ∧ (convertPointCloudMsg msg point_cloud).z = msg.points.map (fun p => p.z)
      ∧ (convertPointCloudMsg msg point_cloud).intensity = msg.points.map (fun p => p.intensity)
      ∧ (convertPointCloudMsg msg point_cloud).timestamp = msg.points.map (fun p => p.timestamp)
      ∧ (convertPointCloudMsg msg point_cloud).point_count = msg.points.length
      ∧ List.zip (convertPointCloudMsg msg point_cloud).x
          (List.zip (convertPointCloudMsg msg point_cloud).y
            (convertPointCloudMsg msg point_cloud).z)
          = msg.points.map (fun p => axisMap (xyz p)))
    ∧ (∀ (α : Type) [InvolutiveNeg α] (q : α × α × α),
        axisMap (axisMap (axisMap (axisMap q))) = q)
    ∧ xyzRows (convertPointCloudMsg
        (⟨6, [samplePoint 1 2 3 100, samplePoint 4 5 6 101]⟩ : PointCloudMsg Int)
        PointCloudData.new) = [-2, 1, 3, -5, 4, 6] := by
  refine ⟨?_, ?_, by decide⟩
  · intro α _ msg point_cloud
    rw [convertPointCloudMsg_eq]
    exact ⟨rfl, rfl, rfl, rfl, rfl, rfl, zip_map_axisMap msg.points⟩
  · intro α _ q
    simp [axisMap]

/-! ## Frame ids seen by the reader -/

theorem get_stuffed {α : Type} (c c1 : Client α) (point_cloud out : PointCloudData α)
    (r : Bool) (h : get c point_cloud = some (r, c1, out)) :
    c1.stuffed_cloud_queue = c.stuffed_cloud_queue := by
  unfold get at h
  cases hrun : c.running <;> cases hstop : c.should_stop_processing <;>
    cases hnew : c.has_new_data <;> simp [hrun, hstop, hnew, set_error] at h
  all_goals
    obtain ⟨_, rfl, _⟩ := h
    rfl

theorem Session.step_queue {α : Type} [Neg α] (s : Session α) (a : Action α) :
    (s.step a).published ++ (s.step a).client.stuffed_cloud_queue =
      s.published ++ s.client.stuffed_cloud_queue ++ deliveredOf [a] := by
  cases a with
  | deliver msg => simp [Session.step, returnPointCloudCallback, deliveredOf]
  | publish =>
    cases hstop : s.client.should_stop_processing
    · rcases hq : s.client.stuffed_cloud_queue with _ | ⟨m, rest⟩
      · simp [Session.step, handledFrame, processCloudIter, hstop, hq, deliveredOf]
      · simp [Session.step, handledFrame, processCloudIter, hstop, hq, deliveredOf]
    · simp [Session.step, handledFrame, processCloudIter, hstop, deliveredOf]
  | get =>
    rcases hg : get s.client PointCloudData.new with _ | ⟨r, c1, out⟩
    · simp [Session.step, hg, deliveredOf]
    · have hst := get_stuffed _ _ _ _ _ hg
      cases r <;> simp [Session.step, hg, hst, deliveredOf]

theorem deliveredOf_cons {α : Type} (a : Action α) (as : List (Action α)) :
    deliveredOf (a :: as) = deliveredOf [a] ++ deliveredOf as := by
  cases a <;> simp [deliveredOf]

theorem Session.run_queue {α : Type} [Neg α] (as : List (Action α)) (s : Session α) :
    (s.run as).published ++ (s.run as).client.stuffed_cloud_queue =
      s.published ++ s.client.stuffed_cloud_queue ++ deliveredOf as := by
  induction as generalizing s with
  | nil => simp [Session.run, deliveredOf]
  | cons a as ih =>
    have hrun : s.run (a :: as) = (s.step a).run as := rfl
    rw [hrun, ih, Session.step_queue, deliveredOf_cons a as]
    simp

/-- When every delivered frame has at least one point, the sequence numbers
of the delivered frames never decrease, and the session starts with an empty
delivery queue and a cell that is not fresh, then the frame ids of the
successful `get` results never decrease and each is the sequence number of a
delivered frame. -/
theorem frame_ids_sorted_of_points {α : Type} [Neg α] (c : Client α) (as : List (Action α))
    (hstale : c.has_new_data = false) (hqueue : c.stuffed_cloud_queue = [])
    (hpoints : ∀ m ∈ deliveredOf as, m.points ≠ [])
    (hseq : (deliveredOf as).Pairwise (fun a b => a.seq ≤ b.seq)) :
    ((Session.run ⟨c, [], []⟩ as).returned.map PointCloudData.frame_id).Pairwise
        (fun a b => a ≤ b)
    ∧ ∀ d ∈ (Session.run ⟨c, [], []⟩ as).returned,
        ∃ m ∈ deliveredOf as, m.seq = d.frame_id := by
  have hsub : List.Sublist (Session.run ⟨c, [], []⟩ as).returned
      ((Session.run ⟨c, [], []⟩ as).published.map
        (fun m => convertPointCloudMsg m PointCloudData.new)) := by
    apply Session.run_inv
    · intro h
      rw [hstale] at h
      cases h
    · intro _
      exact List.nil_sublist _
  have hq := Session.run_queue as (⟨c, [], []⟩ : Session α)
  simp only [hqueue, List.nil_append] at hq
  have hpub : List.Sublist (Session.run ⟨c, [], []⟩ as).published (deliveredOf as) := by
    rw [← hq]
    exact List.sublist_append_left _ _
  have hall : List.Sublist (Session.run ⟨c, [], []⟩ as).returned
      ((deliveredOf as).map (fun m => convertPointCloudMsg m PointCloudData.new)) :=
    hsub.trans (hpub.map _)
  have hid : ∀ m ∈ deliveredOf as,
      (convertPointCloudMsg m PointCloudData.new).frame_id = m.seq := by
    intro m hm
    have hlen : ¬ m.points.length = 0 := fun h => hpoints m hm (List.length_eq_zero.mp h)
    rw [convertPointCloudMsg_eq]
    simp [hlen]
  constructor
  · have hids : List.Sublist
        ((Session.run ⟨c, [], []⟩ as).returned.map PointCloudData.frame_id)
        ((deliveredOf as).map (fun m => m.seq)) := by
      have h1 := hall.map PointCloudData.frame_id
      rw [List.map_map] at h1
      have h2 : (deliveredOf as).map
          (PointCloudData.frame_id ∘ fun m => convertPointCloudMsg m PointCloudData.new)
          = (deliveredOf as).map (fun m => m.seq) :=
        List.map_congr_left (fun m hm => hid m hm)
      rw [h2] at h1
      exact h1
    exact List.Pairwise.sublist hids (List.pairwise_map.mpr hseq)
  · intro d hd
    obtain ⟨m, hm, rfl⟩ := List.mem_map.mp (hall.subset hd)
    exact ⟨m, hm, (hid m hm).symm⟩

/-- C12, where the code departs from it: the driver delivers frame 4 with one
point and then frame 5 without points (sequence numbers increasing), the
publisher handles each and the reader fetches each; the two successful `get`
results carry the frame ids 4 and then 0, so the ids decrease and the second
is not the sequence number of a delivered frame. -/
theorem get_frame_id_of_empty_frame :
    (deliveredOf sampleEmptyFrameSteps).map (fun m => m.seq) = [4, 5]
    ∧ sampleRunning.has_new_data = false ∧ sampleRunning.stuffed_cloud_queue = []
    ∧ (Session.run ⟨sampleRunning, [], []⟩ sampleEmptyFrameSteps).returned.map
        PointCloudData.frame_id = [4, 0]
    ∧ convertPointCloudMsg (⟨5, []⟩ : PointCloudMsg Int) PointCloudData.new
        = ⟨[], [], [], [], [], 0, 0⟩ := by
  decide

/-! ## `processCloud`: frames without points -/

theorem processCloud_cons {α : Type} [Zero α] (num_frames : Int) (msg : PointCloudMsg α)
    (stuffed : List (PointCloudMsg α)) (s : ExportState α) :
    processCloud num_frames (msg :: stuffed) s =
      match saveRaw msg s with
      | none => Outcome.fault s
      | some s1 =>
        if stopTest msg.seq num_frames then Outcome.stopped stuffed (pushFree msg s1)
        else processCloud num_frames stuffed (pushFree msg s1) := by
  rw [processCloud]

/-- C13, where the code departs from it: `processCloud` has no test on the
number of points. For a frame without points, whatever its sequence number,
the bound, the rest of the queue and the state, the save step evaluates
`points.front()` on the empty vector, which is where the run of the loop ends
in the model. On the sample frames with bound 1 the first frame (two points)
gets its file of shape `(2, 3)` and the second frame (no points) is the fault,
while `processCloudWithCalib` on the same queue writes no file for it and
stops. -/
theorem processCloud_empty_frame :
    (∀ (α : Type) [Zero α] (num_frames : Int) (seq : Nat)
      (stuffed : List (PointCloudMsg α)) (s : ExportState α),
      saveRaw (⟨seq, []⟩ : PointCloudMsg α) s = none
      ∧ processCloud num_frames (⟨seq, []⟩ :: stuffed) s = Outcome.fault s)
    ∧ processCloud 1 sampleFrames emptyExport =
        Outcome.fault
          ⟨[⟨1, [samplePoint 1 2 3 100, samplePoint (-10) (-10) (-10) 101]⟩],
            [⟨1, 100, [1, 2, 3, -10, -10, -10], (2, 3)⟩], [1]⟩
    ∧ processCloudWithCalib identityR zeroT box05 1 sampleFrames emptyExport =
        Outcome.stopped [⟨3, [samplePoint 9 9 9 300]⟩]
          ⟨[⟨1, [samplePoint 1 2 3 100, samplePoint (-10) (-10) (-10) 101]⟩, ⟨2, []⟩],
            [⟨1, 100, [1, 2, 3], (1, 3)⟩], [1]⟩ := by
  refine ⟨?_, by decide, by decide⟩
  intro α _ num_frames seq stuffed s
  have hsave : saveRaw (⟨seq, []⟩ : PointCloudMsg α) s = none := rfl
  exact ⟨hsave, by rw [processCloud_cons, hsave]⟩

/-! ## The stop test with a signed bound -/

theorem toUInt32_nonneg (b : Int) (h0 : 0 ≤ b) (h1 : b < 2 ^ 31) :
    (toUInt32 b : Int) = b := by
  have hmod : b % 2 ^ 32 = b := Int.emod_eq_of_lt h0 (by omega)
  simp only [toUInt32, hmod]
  omega

theorem toUInt32_neg (b : Int) (h0 : b < 0) (h1 : -2 ^ 31 ≤ b) :
    (toUInt32 b : Int) = b + 2 ^ 32 := by
  have hmod : b % 2 ^ 32 = b + 2 ^ 32 := by
    rw [← Int.add_emod_self]
    exact Int.emod_eq_of_lt (by omega) (by omega)
  simp only [toUInt32, hmod]
  omega

theorem processCloudWithCalib_no_stop {α : Type} [Mul α] [Add α] [LE α]
    [DecidableRel (fun (a b : α) => a ≤ b)]
    (R : Fin 9 → α) (t : Fin 3 → α) (ranges : Fin 6 → α) (num_frames : Int)
    (stuffed : List (PointCloudMsg α)) (s : ExportState α)
    (h : ∀ m ∈ stuffed, stopTest m.seq num_frames = false)
    (post : List (PointCloudMsg α)) (st : ExportState α) :
    processCloudWithCalib R t ranges num_frames stuffed s ≠ Outcome.stopped post st := by
  induction stuffed generalizing s with
  | nil => simp [processCloudWithCalib]
  | cons m q ih =>
    rw [processCloudWithCalib_cons, h m (List.mem_cons_self _ _)]
    simpa using ih _ (fun m2 hm2 => h m2 (List.mem_cons_of_mem _ hm2))

theorem processCloud_no_stop {α : Type} [Zero α] (num_frames : Int)
    (stuffed : List (PointCloudMsg α)) (s : ExportState α)
    (h : ∀ m ∈ stuffed, stopTest m.seq num_frames = false)
    (post : List (PointCloudMsg α)) (st : ExportState α) :
    processCloud num_frames stuffed s ≠ Outcome.stopped post st := by
  induction stuffed generalizing s with
  | nil => simp [processCloud]
  | cons m q ih =>
    rw [processCloud_cons, h m (List.mem_cons_self _ _)]
    cases saveRaw m s with
    | none => simp
    | some s1 => simpa using ih _ (fun m2 hm2 => h m2 (List.mem_cons_of_mem _ hm2))

/-- C14: the stop test of both export loops compares the `uint32_t` sequence
number with the `int` bound converted modulo `2^32`. For a bound
`0 ≤ b < 2^31` the test holds exactly when `seq > b` as integers. For a bound
`-2^31 ≤ b < 0` it holds exactly when `seq > b + 2^32`, although `seq > b` as
integers; it fails for the sequence numbers 0 and 1. With the bound `-1` it
fails for every sequence number below `2^32`, and then neither loop reaches
its `break` on any finite queue of such frames. -/
theorem stopTest_signed_bound (seq : Nat) (b : Int) :
    (0 ≤ b → b < 2 ^ 31 → (stopTest seq b = true ↔ b < (seq : Int)))
    ∧ (b < 0 → -2 ^ 31 ≤ b →
        (stopTest seq b = true ↔ b + 2 ^ 32 < (seq : Int))
        ∧ b < (seq : Int)
        ∧ stopTest 0 b = false ∧ stopTest 1 b = false)
    ∧ (seq < 2 ^ 32 → stopTest seq (-1) = false)
    ∧ (∀ (α : Type) [Mul α] [Add α] [LE α] [DecidableRel (fun (a b : α) => a ≤ b)]
        (R : Fin 9 → α) (t : Fin 3 → α) (ranges : Fin 6 → α)
        (stuffed post : List (PointCloudMsg α)) (s st : ExportState α),
        (∀ m ∈ stuffed, m.seq < 2 ^ 32) →
        processCloudWithCalib R t ranges (-1) stuffed s ≠ Outcome.stopped post st)
    ∧ (∀ (α : Type) [Zero α] (stuffed post : List (PointCloudMsg α)) (s st : ExportState α),
        (∀ m ∈ stuffed, m.seq < 2 ^ 32) →
        processCloud (-1) stuffed s ≠ Outcome.stopped post st) := by
  have hm1 : ∀ n : Nat, n < 2 ^ 32 → stopTest n (-1) = false := by
    intro n hn
    have h := toUInt32_neg (-1) (by decide) (by decide)
    simp only [stopTest, decide_eq_false_iff_not]
    omega
  refine ⟨?_, ?_, hm1 seq, ?_, ?_⟩
  · intro h0 h1
    have h := toUInt32_nonneg b h0 h1
    simp only [stopTest, decide_eq_true_eq]
    omega
  · intro h0 h1
    have h := toUInt32_neg b h0 h1
    refine ⟨?_, by omega, ?_, ?_⟩
    · simp only [stopTest, decide_eq_true_eq]
      omega
    · simp only [stopTest, decide_eq_false_iff_not]
      omega
    · simp only [stopTest, decide_eq_false_iff_not]
      omega
  · intro α _ _ _ _ R t ranges stuffed post s st hseq
    exact processCloudWithCalib_no_stop R t ranges (-1) stuffed s
      (fun m hm => hm1 m.seq (hseq m hm)) post st
  · intro α _ stuffed post s st hseq
    exact processCloud_no_stop (-1) stuffed s (fun m hm => hm1 m.seq (hseq m hm)) post st

/-- C14, at the bound 5 with sequence number 7, at the bound -3 with sequence
number 1, and at the bound -1 with the largest sequence number. -/
theorem stopTest_signed_bound_witness :
    ((0 : Int) ≤ 5 ∧ (5 : Int) < 2 ^ 31 ∧ (stopTest 7 5 = true ↔ (5 : Int) < ((7 : Nat) : Int)))
    ∧ ((-3 : Int) < 0 ∧ -2 ^ 31 ≤ (-3 : Int) ∧ stopTest 1 (-3) = false
        ∧ (-3 : Int) < ((1 : Nat) : Int))
    ∧ (4294967295 < 2 ^ 32 ∧ stopTest 4294967295 (-1) = false) :=
  ⟨⟨by decide, by decide, (stopTest_signed_bound 7 5).1 (by decide) (by decide)⟩,
    ⟨by decide, by decide, ((stopTest_signed_bound 1 (-3)).2.1 (by decide) (by decide)).2.2.2,
      ((stopTest_signed_bound 1 (-3)).2.1 (by decide) (by decide)).2.1⟩,
    ⟨by decide, (stopTest_signed_bound 4294967295 (-1)).2.2.1 (by decide)⟩⟩

end RsXue
